import Mathlib

/-!
Formal model of the fastcc core: the tagged codec registry
(`src/fastcc/codec.py`, `src/fastcc/serialization.py`) and the MQTT topic
router (`src/fastcc/router.py`), as a shallow embedding in Lean.

Conventions of the embedding:
  * Python `bytes` values are `List Nat`, each element a byte (< 256 for
    well-formed inputs).
  * Python values that can reach the codec registry or the router are
    modelled by the inductive `PyValue`.  Python `float`s are carried as
    their 64-bit IEEE-754 bit pattern (`struct.pack`/`unpack` are exact on
    the bit pattern, so this loses nothing).  Protobuf messages are carried
    as their serialized bytes (the registry only ever calls
    `SerializeToString` on them).  Arbitrary other application objects are
    `vObj className objId`, compared by identity, which is how `dispatch`
    treats them (it only passes them through).
  * Python exceptions are modelled with `Except String`; the error value is
    the raise site's format string (format arguments are dropped).  In the
    source, every `raise` in `register`, `encode`, `decode`, `deserialize`
    and the route validators happens before any mutation, so a function
    that returns `Except` (or a state/`Except` pair) is a faithful model.
-/

/-- A Python value as seen by the fastcc serialization and dispatch code. -/
inductive PyValue where
  | vNone : PyValue
  | vBool (b : Bool) : PyValue
  | vInt (i : Int) : PyValue
  | vFloat (bits : Nat) : PyValue
  | vBytes (bs : List Nat) : PyValue
  | vStr (s : String) : PyValue
  | vProtobuf (serialized : List Nat) : PyValue
  | vObj (className : String) (objId : Nat) : PyValue
deriving DecidableEq, Repr

/-- Python `isinstance(v, int)`: `bool` is a subtype of `int`. -/
def isinstInt : PyValue → Bool
  | .vInt _ => true
  | .vBool _ => true
  | _ => false

/-- Python `isinstance(v, bool)`. -/
def isinstBool : PyValue → Bool
  | .vBool _ => true
  | _ => false

/-- Python truthiness of a `PyValue` (`bool(v)`). -/
def pyTruthy : PyValue → Bool
  | .vNone => false
  | .vBool b => b
  | .vInt i => i != 0
  | .vFloat bits => bits % 2 ^ 63 != 0
  | .vBytes bs => !bs.isEmpty
  | .vStr s => !s.isEmpty
  | .vProtobuf _ => true
  | .vObj _ _ => true

/-- The class name Python's `type(v).__name__` would report. -/
def pyTypeName : PyValue → String
  | .vNone => "NoneType"
  | .vBool _ => "bool"
  | .vInt _ => "int"
  | .vFloat _ => "float"
  | .vBytes _ => "bytes"
  | .vStr _ => "str"
  | .vProtobuf _ => "Message"
  | .vObj cn _ => cn

/-!
IEEE-754 double-precision bit-pattern helpers, used to model Python's
`==` on floats.  A 64-bit pattern has sign `bits / 2^63`, exponent field
`bits / 2^52 % 2^11` and mantissa `bits % 2^52`.
-/
/-- The exponent field of a 64-bit IEEE-754 pattern. -/
def floatExpField (bits : Nat) : Nat := bits / 2 ^ 52 % 2 ^ 11

/-- The mantissa field of a 64-bit IEEE-754 pattern. -/
def floatManField (bits : Nat) : Nat := bits % 2 ^ 52

/-- Whether a 64-bit IEEE-754 pattern denotes a NaN. -/
def isNaNBits (bits : Nat) : Bool :=
  floatExpField bits == 2 ^ 11 - 1 && floatManField bits != 0

/-- Whether a 64-bit IEEE-754 pattern denotes an infinity. -/
def isInfBits (bits : Nat) : Bool :=
  floatExpField bits == 2 ^ 11 - 1 && floatManField bits == 0

/-- Whether a 64-bit IEEE-754 pattern denotes a zero (either sign). -/
def isZeroBits (bits : Nat) : Bool := bits % 2 ^ 63 == 0

/-- The exact integer denoted by a finite, integral 64-bit IEEE-754 pattern,
`none` for NaN, infinities and non-integral values.  Used for Python's
cross-type numeric `==` between floats and ints/bools. -/
def floatAsInt (bits : Nat) : Option Int :=
  if floatExpField bits == 2 ^ 11 - 1 then none
  else
    let sign : Int := if bits / 2 ^ 63 == 1 then -1 else 1
    let m : Nat := if floatExpField bits == 0 then floatManField bits
      else floatManField bits + 2 ^ 52
    if floatExpField bits + 52 < 1075 then
      let d := 2 ^ (1075 - 52 - floatExpField bits)
      if m % d == 0 then some (sign * (m / d : Nat)) else none
    else
      some (sign * (m * 2 ^ (floatExpField bits - 1023 - 52) : Nat))

/-- Python `==` on two float bit patterns: NaN is unequal to everything
(itself included); `+0.0 == -0.0`; otherwise distinct finite or infinite
patterns denote distinct reals, so the patterns are compared directly. -/
def floatEqBits (a b : Nat) : Bool :=
  if isNaNBits a || isNaNBits b then false
  else if isZeroBits a && isZeroBits b then true
  else a == b

/-- Python `int(b)` for a bool. -/
def boolToInt (b : Bool) : Int := if b then 1 else 0

/-- Python `==` between an int and a float bit pattern. -/
def intEqFloatBits (i : Int) (bits : Nat) : Bool :=
  match floatAsInt bits with
  | some v => i == v
  | none => false

/-- Python `==` on `PyValue`s, including the numeric cross-type cases
(`True == 1`, `5 == 5.0`) and identity comparison for opaque objects. -/
def pyEq : PyValue → PyValue → Bool
  | .vNone, .vNone => true
  | .vBool a, .vBool b => a == b
  | .vBool a, .vInt b => boolToInt a == b
  | .vInt a, .vBool b => a == boolToInt b
  | .vInt a, .vInt b => a == b
  | .vFloat a, .vFloat b => floatEqBits a b
  | .vInt a, .vFloat b => intEqFloatBits a b
  | .vFloat a, .vInt b => intEqFloatBits b a
  | .vBool a, .vFloat b => intEqFloatBits (boolToInt a) b
  | .vFloat a, .vBool b => intEqFloatBits (boolToInt b) a
  | .vBytes a, .vBytes b => a == b
  | .vStr a, .vStr b => a == b
  | .vProtobuf a, .vProtobuf b => a == b
  | .vObj _ i, .vObj _ j => i == j
  | _, _ => false

/-!
Big-endian byte strings, modelling Python's `int.to_bytes` / `int.from_bytes`
and `struct.pack("!d", ...)` at the byte level.
-/
/-- Big-endian bytes of `n`, `len` bytes long (`int.to_bytes` layout). -/
def natToBytesBE : Nat → Nat → List Nat
  | 0, _ => []
  | len + 1, n => natToBytesBE len (n / 256) ++ [n % 256]

/-- Big-endian value of a byte string (`int.from_bytes(..., "big")`). -/
def natFromBytesBE (bs : List Nat) : Nat :=
  bs.foldl (fun acc b => acc * 256 + b) 0

/-- Python `int.bit_length` via a structural fuel recursion (the fuel `n`
always suffices because the argument at least halves each step). -/
def bitLen (n : Nat) : Nat := bitLenGo n n
where
  bitLenGo : Nat → Nat → Nat
    | _, 0 => 0
    | 0, _ + 1 => 0
    | fuel + 1, m + 1 => bitLenGo fuel ((m + 1) / 2) + 1

/-!
Constants from `src/fastcc/constants.py`.
-/
def MAX_PAYLOAD_SIZE : Nat := 1048576

def FLOAT_BYTE_LENGTH : Nat := 8

def BOOL_FALSE_BYTE : List Nat := [0]

def BOOL_TRUE_BYTE : List Nat := [1]

def MAX_CODEC_TAG : Int := 255

def TOPIC_SEPARATOR : Char := Char.ofNat 47

def SINGLE_LEVEL_WILDCARD : Char := Char.ofNat 43

def MULTI_LEVEL_WILDCARD : Char := Char.ofNat 35

def WILDCARD_PARAMETER_NAME : String := "wildcard"

/-!
Error messages (the format strings at each `raise` site in the source).
-/
def msgEmptyData : String := "Cannot deserialize empty data"

def msgUnsupportedType : String := "Unsupported packet type: %s"

def msgUnrecognisedTag : String := "Unrecognised type tag: 0x%02x"

def msgTagNotInt : String := "Codec tag must be an integer in range 0..255: %r"

def msgTagOutOfRange : String := "Codec tag out of range 0..255: %d"

def msgTagAlreadyRegistered : String := "Codec tag already registered: 0x%02x"

def msgInvalidNoneLen : String := "Invalid None payload length: %s"

def msgInvalidBoolLen : String := "Invalid boolean payload length: %s"

def msgInvalidBoolVal : String := "Invalid boolean payload value: %s"

def msgInvalidUtf8 : String := "Failed to decode UTF-8 string: %s"

def msgInvalidIntLen : String := "Invalid integer payload length: %s"

def msgInvalidFloatLen : String := "Invalid float payload length: %s"

def msgPayloadTooLarge : String := "Payload size exceeds maximum limit: %d bytes"

def msgBytesRange : String := "bytes must be in range(0, 256)"

def msgIntRequired : String := "an integer is required"

/-!
UTF-8, modelling Python's `str.encode("utf-8")` and strict
`bytes.decode("utf-8")` over Unicode scalar values (`Char` carries exactly
the valid scalar values, so the encoder is total).
-/
/-- UTF-8 bytes of one scalar value. -/
def utf8EncodeChar (c : Char) : List Nat :=
  let n := c.toNat
  if n < 128 then [n]
  else if n < 2048 then [192 + n / 64, 128 + n % 64]
  else if n < 65536 then [224 + n / 4096, 128 + n / 64 % 64, 128 + n % 64]
  else [240 + n / 262144, 128 + n / 4096 % 64, 128 + n / 64 % 64, 128 + n % 64]

/-- UTF-8 bytes of a scalar-value sequence. -/
def utf8EncodeList : List Char → List Nat
  | [] => []
  | c :: cs => utf8EncodeChar c ++ utf8EncodeList cs

/-- Whether a byte is a UTF-8 continuation byte. -/
def utf8Cont (b : Nat) : Bool := 128 ≤ b && b < 192

/-- Constraint on the first continuation byte of a 3-byte sequence
(excludes overlong forms after lead `0xE0` and surrogates after `0xED`). -/
def utf8Lo3 (b b1 : Nat) : Bool :=
  if b == 224 then 160 ≤ b1 && b1 < 192
  else if b == 237 then 128 ≤ b1 && b1 < 160
  else utf8Cont b1

/-- Constraint on the first continuation byte of a 4-byte sequence
(excludes overlong forms after lead `0xF0` and values beyond U+10FFFF after
lead `0xF4`). -/
def utf8Lo4 (b b1 : Nat) : Bool :=
  if b == 240 then 144 ≤ b1 && b1 < 192
  else if b == 244 then 128 ≤ b1 && b1 < 144
  else utf8Cont b1

/-- Decode one scalar value from lead byte `b` and the following bytes,
strictly (as Python's strict UTF-8 mode: continuation-byte starts, overlong
forms, surrogates and values beyond U+10FFFF are rejected). -/
def utf8DecodeOne (b : Nat) (rest : List Nat) : Option (Nat × List Nat) :=
  if b < 128 then some (b, rest)
  else if b < 194 then none
  else if b < 224 then
    match rest with
    | b1 :: rest1 =>
      if utf8Cont b1 then some ((b - 192) * 64 + (b1 - 128), rest1) else none
    | [] => none
  else if b < 240 then
    match rest with
    | b1 :: b2 :: rest2 =>
      if utf8Lo3 b b1 && utf8Cont b2 then
        some ((b - 224) * 4096 + (b1 - 128) * 64 + (b2 - 128), rest2)
      else none
    | _ => none
  else if b < 245 then
    match rest with
    | b1 :: b2 :: b3 :: rest3 =>
      if utf8Lo4 b b1 && utf8Cont b2 && utf8Cont b3 then
        some ((b - 240) * 262144 + (b1 - 128) * 4096 + (b2 - 128) * 64
          + (b3 - 128), rest3)
      else none
    | _ => none
  else none

/-- Fuel-driven UTF-8 decoding loop; `fuel = length` always suffices since
every scalar consumes at least one byte. -/
def utf8DecodeGo : Nat → List Nat → Option (List Char)
  | _, [] => some []
  | 0, _ :: _ => none
  | fuel + 1, b :: rest =>
    match utf8DecodeOne b rest with
    | some (n, rest1) =>
      (utf8DecodeGo fuel rest1).map (fun cs => Char.ofNat n :: cs)
    | none => none

/-- Strict UTF-8 decoding of a whole byte string. -/
def utf8DecodeList (bs : List Nat) : Option (List Char) :=
  utf8DecodeGo bs.length bs

/-!
The codec interface and the built-in codecs of
`src/fastcc/serialization.py`.  A codec's tag attribute may be any Python
object; `PyTag` distinguishes genuine ints, bools and everything else,
because `CodecRegistry.register` checks exactly that.
-/
/-- The value of a codec's `tag` attribute. -/
inductive PyTag where
  | int (n : Int) : PyTag
  | bool (b : Bool) : PyTag
  | other : PyTag
deriving DecidableEq, Repr

/-- Python `==` on tag values (only int/bool tags compare equal across
kinds; `other` stands for an object with identity equality, never equal to
a stored, validated tag). -/
def pyTagEq : PyTag → PyTag → Bool
  | .int a, .int b => a == b
  | .bool a, .bool b => a == b
  | .bool a, .int b => boolToInt a == b
  | .int a, .bool b => a == boolToInt b
  | _, _ => false

/-- A codec: tag attribute, capability predicate, encoder and decoder.
`encode` is only ever invoked on values accepted by `can_encode`; on other
values the Python lambdas would raise, here they return a junk value. -/
structure Codec where
  tag : PyTag
  can_encode : PyValue → Bool
  encode : PyValue → List Nat
  decode : List Nat → Except String PyValue

/-- The byte `bytes([tag])` would produce, or the error it would raise. -/
def pyByteOfTag : PyTag → Except String Nat
  | .int n => if 0 ≤ n ∧ n < 256 then .ok n.toNat else .error msgBytesRange
  | .bool b => .ok (if b then 1 else 0)
  | .other => .error msgIntRequired

/-- Source `_encode_none`. -/
def _encode_none (_ : PyValue) : List Nat := []

/-- Source `_decode_none`. -/
def _decode_none (payload : List Nat) : Except String PyValue :=
  if payload.length ≠ 0 then .error msgInvalidNoneLen
  else .ok .vNone

/-- Source `_encode_bool` (`BOOL_TRUE_BYTE if value else BOOL_FALSE_BYTE`,
i.e. by truthiness). -/
def _encode_bool (v : PyValue) : List Nat :=
  if pyTruthy v then BOOL_TRUE_BYTE else BOOL_FALSE_BYTE

/-- Source `_decode_bool`. -/
def _decode_bool (payload : List Nat) : Except String PyValue :=
  if payload.length ≠ 1 then .error msgInvalidBoolLen
  else if payload ≠ BOOL_FALSE_BYTE ∧ payload ≠ BOOL_TRUE_BYTE then
    .error msgInvalidBoolVal
  else .ok (.vBool (payload == BOOL_TRUE_BYTE))

/-- Source `_decode_string` (`payload.decode("utf-8")`). -/
def _decode_string (payload : List Nat) : Except String PyValue :=
  match utf8DecodeList payload with
  | some cs => .ok (.vStr (String.mk cs))
  | none => .error msgInvalidUtf8

/-- Source `_encode_int`: `(bit_length + 8) // 8` bytes, big-endian,
two's-complement (`to_bytes(..., signed=True)`, which for a fitting value
writes `v mod 2^(8*len)`). -/
def _encode_int (i : Int) : List Nat :=
  let byte_len := (bitLen i.natAbs + 8) / 8
  natToBytesBE byte_len (i % (2 ^ (8 * byte_len) : Int)).toNat

/-- Source `_decode_int` (`int.from_bytes(payload, "big", signed=True)`). -/
def _decode_int (payload : List Nat) : Except String PyValue :=
  if payload.length = 0 then .error msgInvalidIntLen
  else
    let n := natFromBytesBE payload
    let len := payload.length
    .ok (.vInt (if 2 ^ (8 * len - 1) ≤ n then (n : Int) - 2 ^ (8 * len)
      else (n : Int)))

/-- Source `_decode_float` (`struct.unpack("!d", payload)`, carried as the
bit pattern). -/
def _decode_float (payload : List Nat) : Except String PyValue :=
  if payload.length ≠ FLOAT_BYTE_LENGTH then .error msgInvalidFloatLen
  else .ok (.vFloat (natFromBytesBE payload))

/-- The built-in codec for `None` (tag `0x00`). -/
def noneCodec : Codec where
  tag := .int 0
  can_encode := fun v => v == .vNone
  encode := _encode_none
  decode := _decode_none

/-- The built-in codec for `bool` (tag `0x05`). -/
def boolCodec : Codec where
  tag := .int 5
  can_encode := isinstBool
  encode := _encode_bool
  decode := _decode_bool

/-- The built-in codec for `bytes` (tag `0x01`). -/
def bytesCodec : Codec where
  tag := .int 1
  can_encode := fun v => match v with | .vBytes _ => true | _ => false
  encode := fun v => match v with | .vBytes bs => bs | _ => []
  decode := fun payload => .ok (.vBytes payload)

/-- The built-in codec for `str` (tag `0x02`). -/
def strCodec : Codec where
  tag := .int 2
  can_encode := fun v => match v with | .vStr _ => true | _ => false
  encode := fun v => match v with | .vStr s => utf8EncodeList s.data | _ => []
  decode := _decode_string

/-- The built-in codec for `int` (tag `0x03`); its capability predicate is
`isinstance(value, int) and not isinstance(value, bool)`. -/
def intCodec : Codec where
  tag := .int 3
  can_encode := fun v => isinstInt v && !isinstBool v
  encode := fun v => match v with | .vInt i => _encode_int i | _ => []
  decode := _decode_int

/-- The built-in codec for `float` (tag `0x04`). -/
def floatCodec : Codec where
  tag := .int 4
  can_encode := fun v => match v with | .vFloat _ => true | _ => false
  encode := fun v => match v with | .vFloat bits => natToBytesBE 8 bits | _ => []
  decode := _decode_float

/-- The built-in codec for protobuf messages (tag `0x06`): encodes via
`SerializeToString` (the stored serialization) and decodes to the raw
payload bytes (the caller must parse them). -/
def protobufCodec : Codec where
  tag := .int 6
  can_encode := fun v => match v with | .vProtobuf _ => true | _ => false
  encode := fun v => match v with | .vProtobuf bs => bs | _ => []
  decode := fun payload => .ok (.vBytes payload)

/-- The tuple of built-in codecs of `_build_default_registry`, in source
order (bool deliberately before int). -/
def builtinCodecs : List Codec :=
  [noneCodec, boolCodec, bytesCodec, strCodec, intCodec, floatCodec,
    protobufCodec]

/-!
The codec registry of `src/fastcc/codec.py`.  The two Python containers —
the dict `_codecs_by_tag` (insertion-ordered, keyed by the byte value of
the tag) and the list `_codecs_by_order` — are modelled as an association
list and a list.  `register` returns the post-state together with the
outcome; every `raise` in the source happens before any mutation, so the
error cases return the unchanged state.
-/
/-- Registry state: `_codecs_by_tag` and `_codecs_by_order`. -/
structure CodecRegistry where
  codecs_by_tag : List (Nat × Codec)
  codecs_by_order : List Codec

/-- CPython dict lookup on the association-list model. -/
def dictLookup : List (Nat × Codec) → Nat → Option Codec
  | [], _ => none
  | (k, v) :: rest, t => if k = t then some v else dictLookup rest t

/-- CPython dict assignment: replaces in place if the key exists (keeping
its position in insertion order), appends otherwise. -/
def dictSet : List (Nat × Codec) → Nat → Codec → List (Nat × Codec)
  | [], k, v => [(k, v)]
  | (k', v') :: rest, k, v =>
    if k' = k then (k, v) :: rest else (k', v') :: dictSet rest k v

/-- The override loop of `register`: replace the first codec in probe order
whose `tag ==` the new tag, then stop (`break`). -/
def replaceFirstByTag : List Codec → PyTag → Codec → List Codec
  | [], _, _ => []
  | c :: rest, t, new =>
    if pyTagEq c.tag t then new :: rest
    else c :: replaceFirstByTag rest t new

/-- An empty registry (`CodecRegistry()` with no codecs). -/
def emptyRegistry : CodecRegistry := { codecs_by_tag := [], codecs_by_order := [] }

/-- Source `CodecRegistry.register`: validates the tag (a genuine int, not
a bool, in `0..MAX_CODEC_TAG`), rejects an occupied tag unless `override`,
on override replaces in place in both containers, otherwise appends. -/
def CodecRegistry.register (reg : CodecRegistry) (codec : Codec)
    (override : Bool) : CodecRegistry × Except String Unit :=
  match codec.tag with
  | .bool _ => (reg, .error msgTagNotInt)
  | .other => (reg, .error msgTagNotInt)
  | .int tag =>
    if ¬(0 ≤ tag ∧ tag ≤ MAX_CODEC_TAG) then (reg, .error msgTagOutOfRange)
    else
      match dictLookup reg.codecs_by_tag tag.toNat with
      | some _ =>
        if ¬override then (reg, .error msgTagAlreadyRegistered)
        else
          ({ codecs_by_tag := dictSet reg.codecs_by_tag tag.toNat codec,
             codecs_by_order :=
               replaceFirstByTag reg.codecs_by_order codec.tag codec },
           .ok ())
      | none =>
        ({ codecs_by_tag := dictSet reg.codecs_by_tag tag.toNat codec,
           codecs_by_order := reg.codecs_by_order ++ [codec] },
         .ok ())

/-- `register` as an `Except`, for chaining registrations. -/
def registerE (reg : CodecRegistry) (codec : Codec) (override : Bool) :
    Except String CodecRegistry :=
  match reg.register codec override with
  | (reg', .ok ()) => .ok reg'
  | (_, .error e) => .error e

/-- The probe loop of `CodecRegistry.encode`: first codec whose capability
predicate accepts the value wins; its output is prefixed with its tag byte. -/
def encodeFirst : List Codec → PyValue → Except String (List Nat)
  | [], _ => .error msgUnsupportedType
  | c :: rest, v =>
    if c.can_encode v then (pyByteOfTag c.tag).map (fun b => b :: c.encode v)
    else encodeFirst rest v

/-- Source `CodecRegistry.encode`. -/
def CodecRegistry.encode (reg : CodecRegistry) (v : PyValue) :
    Except String (List Nat) :=
  encodeFirst reg.codecs_by_order v

/-- Source `CodecRegistry.decode`: fails on empty input, reads the first
byte as the tag, looks it up, and hands the remaining bytes to that codec. -/
def CodecRegistry.decode (reg : CodecRegistry) (data : List Nat) :
    Except String PyValue :=
  match data with
  | [] => .error msgEmptyData
  | tag :: payload =>
    match dictLookup reg.codecs_by_tag tag with
    | none => .error msgUnrecognisedTag
    | some codec => codec.decode payload

/-- Source `_build_default_registry`: registers the built-in codecs in
order on a fresh registry. -/
def defaultRegistryE : Except String CodecRegistry :=
  builtinCodecs.foldlM (fun reg c => registerE reg c false) emptyRegistry

/-- The module-level `default_registry` (its construction succeeds; the
fallback is never taken). -/
def default_registry : CodecRegistry :=
  (defaultRegistryE.toOption).getD emptyRegistry

/-- Source `serialize`: encode with the given registry, defaulting to
`default_registry`. -/
def serialize (packet : PyValue) (registry : Option CodecRegistry) :
    Except String (List Nat) :=
  (registry.getD default_registry).encode packet

/-- Source `deserialize`: rejects empty data, rejects a payload (length
after the tag byte) larger than `MAX_PAYLOAD_SIZE`, then decodes through
the registry. -/
def deserialize (data : List Nat) (registry : Option CodecRegistry) :
    Except String PyValue :=
  if data = [] then .error msgEmptyData
  else if MAX_PAYLOAD_SIZE < data.length - 1 then .error msgPayloadTooLarge
  else (registry.getD default_registry).decode data

/-- Round-tripping a value through the default registry
(`decode(encode(v))`). -/
def defaultRoundtrip (v : PyValue) : Except String PyValue :=
  (default_registry.encode v).bind default_registry.decode

deriving instance DecidableEq for Except

/-- Whether a `PyValue` is well formed (its byte lists hold bytes and its
float pattern fits in 64 bits). -/
def wfValue : PyValue → Bool
  | .vBytes bs => bs.all (fun b => b < 256)
  | .vProtobuf bs => bs.all (fun b => b < 256)
  | .vFloat bits => bits < 2 ^ 64
  | _ => true

/-- The values of built-in kinds for which `decode(encode(v)) == v` holds:
everything except NaN floats, protobuf messages (decode returns raw bytes)
and objects of unsupported kinds (encode fails). -/
def builtinRoundtrippable : PyValue → Bool
  | .vFloat bits => !isNaNBits bits
  | .vProtobuf _ => false
  | .vObj _ _ => false
  | _ => true

/-!
The topic router of `src/fastcc/router.py`.  Topic strings are processed
as `List Char`; splitting, placeholder scanning and matching are explicit
recursions.
-/
def msgEmptyPattern : String :=
  "Invalid topic pattern; topic pattern cannot be empty"

def msgSingleLevel : String :=
  "Invalid topic pattern; single-level wildcard is not allowed in topic pattern %s. Use path-parameters instead (e.g. '\x7bparam\x7d')"

def msgWildcardSegment : String :=
  "Invalid topic pattern; multi-level wildcard must occupy entire segment in topic pattern %s"

def msgWildcardLast : String :=
  "Invalid topic pattern; multi-level wildcard must be the last segment in topic pattern %s"

def msgParamOccupy : String :=
  "Invalid topic pattern; path-parameters must occupy the entire segment (e.g. '\x7bparam\x7d'): %s"

def msgParamReserved : String :=
  "Invalid topic pattern; path-parameter name %s is reserved: %s"

def msgNotAsync : String :=
  "Invalid route handler; %s must be an async function"

def msgMissingParams : String :=
  "Invalid route handler; missing parameters for path-parameters in topic pattern %s: %r"

def msgMultiplePacket : String :=
  "Invalid route handler; more than one packet parameter in topic pattern %s: %r"

def msgKeyError : String := "KeyError"

def lbraceChar : Char := Char.ofNat 123

def rbraceChar : Char := Char.ofNat 125

def underscoreChar : Char := Char.ofNat 95

/-- Split on the topic separator, as Python `str.split("/")` (an empty
string yields one empty segment). -/
def splitSep : List Char → List (List Char)
  | [] => [[]]
  | c :: rest =>
    match splitSep rest with
    | [] => [[c]]
    | s :: ss => if c = TOPIC_SEPARATOR then [] :: s :: ss else (c :: s) :: ss

/-- Topic segments of a string. -/
def splitTopic (s : String) : List String := (splitSep s.data).map String.mk

def isIdentStart (c : Char) : Bool := c.isAlpha || c == underscoreChar

def isIdentChar (c : Char) : Bool := c.isAlphanum || c == underscoreChar

/-- Modelled from the spec: `PATH_PARAMETER_PATTERN` is imported from
`fastcc.constants`, but that module's source does not define it.  Per the
spec, a path parameter is the exact form `\x7bname\x7d` where `name` is a
valid identifier (here: ASCII letters, digits and underscore, not starting
with a digit).  `readPlaceholder` reads one `name\x7d` directly after an
opening brace, returning the name and the remaining input. -/
def readPlaceholder (cs : List Char) : Option (List Char × List Char) :=
  match cs.takeWhile isIdentChar, cs.dropWhile isIdentChar with
  | c :: name1, d :: rest1 =>
    if isIdentStart c ∧ d = rbraceChar then some (c :: name1, rest1) else none
  | _, _ => none

/-- Modelled from the spec: all placeholder matches in a string, leftmost
first and non-overlapping, as `re.findall` of the placeholder pattern.
Fuel-driven; `readPlaceholder_shrinks` shows the input shrinks strictly at
every step, so fuel equal to the length always suffices. -/
def findPlaceholdersGo : Nat → List Char → List (List Char)
  | _, [] => []
  | 0, _ :: _ => []
  | fuel + 1, c :: rest =>
    if c = lbraceChar then
      match readPlaceholder rest with
      | some (name, rest1) => name :: findPlaceholdersGo fuel rest1
      | none => findPlaceholdersGo fuel rest
    else findPlaceholdersGo fuel rest

/-- All placeholder matches in a string (`re.findall`). -/
def findPlaceholdersAux (cs : List Char) : List (List Char) :=
  findPlaceholdersGo cs.length cs

/-- Modelled from the spec: `PATH_PARAMETER_PATTERN.sub` replacing every
placeholder by the single-level wildcard, for the derived subscription
topic. -/
def subPlaceholdersGo : Nat → List Char → List Char
  | _, [] => []
  | 0, rest => rest
  | fuel + 1, c :: rest =>
    if c = lbraceChar then
      match readPlaceholder rest with
      | some (_, rest1) => SINGLE_LEVEL_WILDCARD :: subPlaceholdersGo fuel rest1
      | none => c :: subPlaceholdersGo fuel rest
    else c :: subPlaceholdersGo fuel rest

/-- Placeholder substitution over a whole string. -/
def subPlaceholdersAux (cs : List Char) : List Char :=
  subPlaceholdersGo cs.length cs

/-- Modelled from the spec: `PATH_PARAMETER_PATTERN.fullmatch` on one
segment — the segment is exactly one placeholder. -/
def fullmatchPlaceholder (seg : List Char) : Option (List Char) :=
  match seg with
  | c :: rest =>
    if c = lbraceChar then
      match readPlaceholder rest with
      | some (name, []) => some name
      | _ => none
    else none
  | [] => none

/-- One compiled segment of a topic-pattern regex: a literal (the regex
escaping of `re.escape` does not change which topics match), a named
one-or-more-non-separator capture, or the trailing greedy capture compiled
from the multi-level wildcard. -/
inductive SegPat where
  | lit (s : String) : SegPat
  | param (name : String) : SegPat
  | wildcard : SegPat
deriving DecidableEq, Repr

/-- The compile loop of `_compile_topic_pattern`: empty segments become
empty literals, `\x7bname\x7d` segments become captures, a `#` segment
becomes the trailing wildcard capture and stops the loop (`break`), and
anything else is a literal. -/
def compileSegs : List (List Char) → List SegPat
  | [] => []
  | seg :: rest =>
    if seg = [] then .lit "" :: compileSegs rest
    else
      match fullmatchPlaceholder seg with
      | some name => .param (String.mk name) :: compileSegs rest
      | none =>
        if seg = [MULTI_LEVEL_WILDCARD] then [.wildcard]
        else .lit (String.mk seg) :: compileSegs rest

/-- Source `_compile_topic_pattern` (the compiled regex, as its segment
structure). -/
def _compile_topic_pattern (topic_pattern : String) : List SegPat :=
  compileSegs (splitSep topic_pattern.data)

/-- The named capture groups of the compiled regex, in order
(`regex.groupindex.keys()`). -/
def groupNames : List SegPat → List String
  | [] => []
  | .param n :: ps => n :: groupNames ps
  | .wildcard :: ps => WILDCARD_PARAMETER_NAME :: groupNames ps
  | .lit _ :: ps => groupNames ps

/-- Matching of the compiled regex against the separator-split topic
(`regex.fullmatch(topic)`): a literal matches itself, a capture matches one
non-empty separator-free segment, the trailing wildcard capture greedily
matches the non-empty remainder of the topic.  Returns the capture mapping. -/
def matchSegs : List SegPat → List String → Option (List (String × String))
  | [], [] => some []
  | [.wildcard], ts =>
    if ts.isEmpty || String.intercalate "/" ts == "" then none
    else some [(WILDCARD_PARAMETER_NAME, String.intercalate "/" ts)]
  | .lit l :: ps, t :: ts => if t = l then matchSegs ps ts else none
  | .param n :: ps, t :: ts =>
    if t = "" then none
    else (matchSegs ps ts).map (fun caps => (n, t) :: caps)
  | _, _ => none

/-- Full-match of a compiled pattern against a topic string. -/
def matchTopic (pats : List SegPat) (topic : String) :
    Option (List (String × String)) :=
  matchSegs pats (splitTopic topic)

/-- The per-segment validation loop of `_validate_topic_pattern` (Python
`in` with the one-character needles `#` is character membership). -/
def validateSegs : List (List Char) → Nat → Nat → Except String Unit
  | [], _, _ => .ok ()
  | seg :: rest, total, index =>
    if seg.contains MULTI_LEVEL_WILDCARD ∧ seg ≠ [MULTI_LEVEL_WILDCARD] then
      .error msgWildcardSegment
    else if seg.contains MULTI_LEVEL_WILDCARD ∧ index ≠ total - 1 then
      .error msgWildcardLast
    else
      match findPlaceholdersAux seg with
      | [] => validateSegs rest total (index + 1)
      | p :: ps =>
        if ps ≠ [] ∨ seg ≠ lbraceChar :: (p ++ [rbraceChar]) then
          .error msgParamOccupy
        else if p = WILDCARD_PARAMETER_NAME.data then .error msgParamReserved
        else validateSegs rest total (index + 1)

/-- Source `_validate_topic_pattern`. -/
def _validate_topic_pattern (topic_pattern : String) : Except String Unit :=
  if topic_pattern = "" then .error msgEmptyPattern
  else if topic_pattern.data.contains SINGLE_LEVEL_WILDCARD then
    .error msgSingleLevel
  else
    validateSegs (splitSep topic_pattern.data)
      (splitSep topic_pattern.data).length 0

/-!
Handler signatures (`inspect.signature` data) and handler validation.
-/
/-- The kind of a Python parameter (`inspect.Parameter.kind`). -/
inductive ParamKind where
  | positionalOnly : ParamKind
  | positionalOrKeyword : ParamKind
  | varPositional : ParamKind
  | keywordOnly : ParamKind
  | varKeyword : ParamKind
deriving DecidableEq, Repr

/-- One declared parameter of a handler. -/
structure SigParam where
  name : String
  kind : ParamKind
deriving DecidableEq, Repr

/-- The signature-level data of a handler function: its identity (Python
functions compare by identity), qualified name, declared parameters and
whether it is a coroutine function. -/
structure HandlerSig where
  hid : Nat
  qualname : String
  params : List SigParam
  isCoroutine : Bool
deriving DecidableEq, Repr

/-- The path-parameter names of `_validate_route_handler`: every
placeholder found anywhere in the pattern, plus the reserved wildcard name
when the pattern contains the multi-level wildcard. -/
def pathParamNames (topic_pattern : String) : List String :=
  let base := (findPlaceholdersAux topic_pattern.data).map String.mk
  if topic_pattern.data.contains MULTI_LEVEL_WILDCARD then
    base ++ [WILDCARD_PARAMETER_NAME]
  else base

/-- Source `_validate_route_handler`. -/
def _validate_route_handler (handler : HandlerSig) (topic_pattern : String) :
    Except String Unit :=
  if ¬handler.isCoroutine then .error msgNotAsync
  else
    let pathNames := pathParamNames topic_pattern
    let handlerNames := handler.params.map (fun p => p.name)
    let missing := pathNames.filter (fun n => ¬handlerNames.contains n)
    if missing ≠ [] then .error msgMissingParams
    else
      let nonPath := handler.params.filter
        (fun p => ¬pathNames.contains p.name ∧
          (p.kind = .positionalOrKeyword ∨ p.kind = .keywordOnly))
      if nonPath.length > 1 then .error msgMultiplePacket
      else .ok ()

/-- Source `_topic_pattern_to_topic` (placeholders replaced by the
single-level wildcard, for the transport subscription). -/
def _topic_pattern_to_topic (topic_pattern : String) : String :=
  String.mk (subPlaceholdersAux topic_pattern.data)

/-!
Routes and the router.
-/
/-- The `_Route` frozen dataclass, with its derived fields precomputed in
`__post_init__`.  Its Python structural equality and hash range over all
fields (the `re.Pattern` field compares like its pattern string because
`re.compile` caches), which the derived `DecidableEq` mirrors. -/
structure RouteM where
  topic_pattern : String
  handlerHid : Nat
  qos : Nat
  options : Option Unit
  properties : Option Unit
  timeout : Option Int
  topic : String
  pats : List SegPat
  path_parameters : List String
  injector_parameters : List String
  packet_parameter : Option String
deriving DecidableEq, Repr

/-- Construction of a `_Route` from a validated pattern and handler:
compiles the pattern, takes the capture names as path parameters, the
keyword-only non-path parameters as injectors, and the first remaining
positional-or-keyword/keyword-only parameter as the packet parameter. -/
def mkRoute (topic_pattern : String) (handler : HandlerSig) (qos : Nat)
    (options properties : Option Unit) (timeout : Option Int) : RouteM :=
  let pats := _compile_topic_pattern topic_pattern
  let pathParams := groupNames pats
  { topic_pattern := topic_pattern
    handlerHid := handler.hid
    qos := qos
    options := options
    properties := properties
    timeout := timeout
    topic := _topic_pattern_to_topic topic_pattern
    pats := pats
    path_parameters := pathParams
    injector_parameters :=
      ((handler.params.filter (fun p => p.kind = .keywordOnly)).map
        (fun p => p.name)).filter (fun n => ¬pathParams.contains n)
    packet_parameter :=
      ((handler.params.filter (fun p =>
          (p.kind = .positionalOrKeyword ∨ p.kind = .keywordOnly) ∧
            ¬pathParams.contains p.name)).map (fun p => p.name)).head? }

/-- The router state: the topic prefix (`prefix or ""`) and the CONTENTS
of the Python set `self._routes`.  The list records which routes are in
the set (insertion first, with structural deduplication); the set's
iteration order is NOT specified, so statements about dispatch order
quantify over enumerations of these contents where order matters. -/
structure Router where
  prefixStr : String
  routes : List RouteM
deriving DecidableEq, Repr

/-- Python `set.add`: no-op when an equal element is present. -/
def setAdd (r : RouteM) (rs : List RouteM) : List RouteM :=
  if r ∈ rs then rs else rs ++ [r]

/-- Source `Router.route` applied to a handler (the decorator's action):
joins the prefix and the pattern with the topic separator, validates the
pattern and the handler, and adds the route to the set. -/
def Router.route (router : Router) (topic_pattern : String) (qos : Nat)
    (options properties : Option Unit) (timeout : Option Int)
    (handler : HandlerSig) : Except String Router := do
  let full_pattern := router.prefixStr ++ "/" ++ topic_pattern
  _validate_topic_pattern full_pattern
  _validate_route_handler handler full_pattern
  let r := mkRoute full_pattern handler qos options properties timeout
  return { router with routes := setAdd r router.routes }

/-!
Dispatch.  A handler's behaviour is an environment mapping its identity
and the keyword-argument mapping to the awaited result.  Dispatch returns
the trace of handler invocations (which for this code is empty or a
singleton) together with the returned value.
-/
/-- The `match.group(name) or ""` normalization of dispatch. -/
def capLookupOrEmpty (caps : List (String × String)) (n : String) : String :=
  match caps.lookup n with
  | some v => v
  | none => ""

/-- The injector loop of dispatch: `injectors[name]` raises `KeyError`
when a needed injector is missing. -/
def injectLoop (names : List String) (acc : List (String × PyValue))
    (injectors : List (String × PyValue)) :
    Except String (List (String × PyValue)) :=
  match names with
  | [] => .ok acc
  | n :: rest =>
    match injectors.lookup n with
    | some v => injectLoop rest (acc ++ [(n, v)]) injectors
    | none => .error msgKeyError

/-- The keyword-argument mapping dispatch builds for a matched route:
path-parameter captures, then the packet parameter (if declared), then the
injected dependencies. -/
def routeArgs (r : RouteM) (caps : List (String × String)) (packet : PyValue)
    (injectors : List (String × PyValue)) :
    Except String (List (String × PyValue)) :=
  let pathArgs := r.path_parameters.map
    (fun n => (n, PyValue.vStr (capLookupOrEmpty caps n)))
  let withPacket :=
    match r.packet_parameter with
    | some p => pathArgs ++ [(p, packet)]
    | none => pathArgs
  injectLoop r.injector_parameters withPacket injectors

/-- The dispatch loop of `Router.dispatch` over one enumeration of the
route set: the first route whose compiled regex fully matches the topic is
invoked with the built argument mapping and its result returned; no match
returns `None` with no invocation. -/
def dispatchList (env : Nat → List (String × PyValue) → PyValue) :
    List RouteM → String → PyValue → List (String × PyValue) →
    Except String (List (Nat × List (String × PyValue)) × Option PyValue)
  | [], _, _, _ => .ok ([], none)
  | r :: rest, topic, packet, injectors =>
    match matchTopic r.pats topic with
    | none => dispatchList env rest topic packet injectors
    | some caps =>
      (routeArgs r caps packet injectors).map
        (fun args => ([(r.handlerHid, args)], some (env r.handlerHid args)))

/-!
Registry well-formedness and the register/override lemmas.
-/
/-- The byte key under which a codec is stored in `_codecs_by_tag` (for
validated tags this is just the tag value). -/
def tagNat (c : Codec) : Nat :=
  match c.tag with
  | .int n => n.toNat
  | .bool b => if b then 1 else 0
  | .other => 0

/-- Whether a codec's tag would pass `register`'s validation. -/
def tagOkB (c : Codec) : Bool :=
  match c.tag with
  | .int n => decide (0 ≤ n ∧ n ≤ 255)
  | _ => false

/-- Invariant of every registry state reachable through `register`: the
dict parallels the probe-order list entry by entry (both containers are
updated in lockstep: fresh tags append to both, overrides replace in place
in both), tags are pairwise distinct, and every stored tag passed
validation. -/
def RegistryWf (reg : CodecRegistry) : Prop :=
  reg.codecs_by_tag = reg.codecs_by_order.map (fun c => (tagNat c, c))
    ∧ (reg.codecs_by_order.map tagNat).Nodup
    ∧ reg.codecs_by_order.all tagOkB = true

/-- A concrete custom codec on tag 7, used as witness material. -/
def customCodec7 : Codec where
  tag := .int 7
  can_encode := fun _ => false
  encode := fun _ => []
  decode := fun payload => .ok (.vBytes payload)

/-- A concrete custom codec on tag 9, used as witness material. -/
def customCodec9 : Codec where
  tag := .int 9
  can_encode := fun _ => false
  encode := fun _ => []
  decode := fun payload => .ok (.vBytes payload)

/-- A replacement codec on tag 7, used as witness material. -/
def customCodec7b : Codec where
  tag := .int 7
  can_encode := fun _ => false
  encode := fun _ => [0]
  decode := fun _ => .ok .vNone

/-- A concrete registry holding the two custom codecs, used as witness
material. -/
def customRegistry : CodecRegistry where
  codecs_by_tag := [(7, customCodec7), (9, customCodec9)]
  codecs_by_order := [customCodec7, customCodec9]

/-- A codec whose tag attribute is the boolean `True`, used as witness
material. -/
def boolTagCodec : Codec where
  tag := .bool true
  can_encode := fun _ => false
  encode := fun _ => []
  decode := fun payload => .ok (.vBytes payload)

/-!
Concrete scenario material for the router claims.
-/
/-- The end-to-end handler of the spec:
`async def handler(name, count, *, db)` — `name` a path parameter, `count`
the payload parameter, `db` keyword-only (an injected dependency). -/
def greetHandler : HandlerSig where
  hid := 1
  qualname := "greet_handler"
  params := [⟨"name", .positionalOrKeyword⟩, ⟨"count", .positionalOrKeyword⟩,
    ⟨"db", .keywordOnly⟩]
  isCoroutine := true

/-- The same handler without the injected dependency (so that registration
passes the packet-parameter count check). -/
def greetHandlerNoDb : HandlerSig where
  hid := 2
  qualname := "greet_handler_no_db"
  params := [⟨"name", .positionalOrKeyword⟩, ⟨"count", .positionalOrKeyword⟩]
  isCoroutine := true

/-- A handler environment returning the handler's identity, to make the
chosen handler observable in dispatch results. -/
def handlerEnv : Nat → List (String × PyValue) → PyValue :=
  fun hid _ => .vInt hid

/-- The route the code builds for `route("greet/\x7bname\x7d")` on a
prefix-less router (note the leading separator from the prefix join). -/
def greetRouteNoDb : RouteM :=
  mkRoute "/greet/\x7bname\x7d" greetHandlerNoDb 0 none none none

/-- Handler `async def hx(x)` for the template `a/\x7bx\x7d`. -/
def axHandler : HandlerSig where
  hid := 3
  qualname := "hx"
  params := [⟨"x", .positionalOrKeyword⟩]
  isCoroutine := true

/-- Handler `async def hb()` for the template `a/b`. -/
def abHandler : HandlerSig where
  hid := 4
  qualname := "hb"
  params := []
  isCoroutine := true

/-- The route the code builds for `route("a/\x7bx\x7d")` on a prefix-less
router. -/
def axRoute : RouteM := mkRoute "/a/\x7bx\x7d" axHandler 0 none none none

/-- The route the code builds for `route("a/b")` on a prefix-less router. -/
def abRoute : RouteM := mkRoute "/a/b" abHandler 0 none none none

/-- A parameterless coroutine handler. -/
def emptyHandler : HandlerSig where
  hid := 9
  qualname := "h0"
  params := []
  isCoroutine := true

/-- A route on the unrelated template `z`, matching neither scenario
topic. -/
def zRoute : RouteM := mkRoute "/z" emptyHandler 0 none none none

/-!
Arithmetic lemmas about the byte-string helpers.
-/
theorem natToBytesBE_length (len n : Nat) : (natToBytesBE len n).length = len := by
  induction len generalizing n with
  | zero => rfl
  | succ k ih => simp [natToBytesBE, ih]

theorem natFromBytesBE_append_single (bs : List Nat) (b : Nat) :
    natFromBytesBE (bs ++ [b]) = natFromBytesBE bs * 256 + b := by
  simp [natFromBytesBE, List.foldl_append]

theorem natFromBytesBE_natToBytesBE (len n : Nat) :
    natFromBytesBE (natToBytesBE len n) = n % 256 ^ len := by
  induction len generalizing n with
  | zero => simp [natToBytesBE, natFromBytesBE, Nat.mod_one]
  | succ k ih =>
    rw [natToBytesBE, natFromBytesBE_append_single, ih]
    have h256 : (256 : Nat) ^ (k + 1) = 256 * 256 ^ k := by ring
    rw [h256, Nat.mod_mul]
    ring

theorem natFromBytesBE_natToBytesBE_of_lt {len n : Nat} (h : n < 256 ^ len) :
    natFromBytesBE (natToBytesBE len n) = n := by
  rw [natFromBytesBE_natToBytesBE, Nat.mod_eq_of_lt h]

theorem bitLenGo_bound (fuel m : Nat) (h : m ≤ fuel) :
    m < 2 ^ bitLen.bitLenGo fuel m := by
  induction fuel generalizing m with
  | zero =>
    interval_cases m
    simp [bitLen.bitLenGo]
  | succ k ih =>
    match m with
    | 0 => simp [bitLen.bitLenGo]
    | j + 1 =>
      have hrec : (j + 1) / 2 ≤ k := by omega
      have hb := ih ((j + 1) / 2) hrec
      rw [bitLen.bitLenGo, pow_succ]
      omega

/-- Python's `n.bit_length()` satisfies `n < 2 ^ n.bit_length()`. -/
theorem lt_two_pow_bitLen (n : Nat) : n < 2 ^ bitLen n :=
  bitLenGo_bound n n (le_refl n)

theorem pow256_eq_pow2 (len : Nat) : (256 : Nat) ^ len = 2 ^ (8 * len) := by
  rw [show (256 : Nat) = 2 ^ 8 from rfl, ← pow_mul]

/-- Round-trip of the built-in integer codec: decoding an encoded integer
recovers it. -/
theorem decode_encode_int (i : Int) : _decode_int (_encode_int i) = .ok (.vInt i) := by
  set s := bitLen i.natAbs with hs
  set len := (s + 8) / 8 with hlen
  have hlen1 : 1 ≤ len := by omega
  have hs8 : s + 1 ≤ 8 * len := by omega
  have hpow_s : (i.natAbs : Nat) < 2 ^ s := lt_two_pow_bitLen i.natAbs
  have hpow_mono : (2 : Nat) ^ s ≤ 2 ^ (8 * len - 1) :=
    Nat.pow_le_pow_right (by norm_num) (by omega)
  have habs : (i.natAbs : Nat) < 2 ^ (8 * len - 1) := lt_of_lt_of_le hpow_s hpow_mono
  have hsplit : (2 : Nat) ^ (8 * len) = 2 * 2 ^ (8 * len - 1) := by
    rw [← pow_succ']
    congr 1
    omega
  have hm_lt : (2 : Int) ^ (8 * len - 1) < 2 ^ (8 * len) := by
    have : (2 : Nat) ^ (8 * len - 1) < 2 ^ (8 * len) := by omega
    exact_mod_cast this
  -- the value written by `to_bytes(..., signed=True)`
  have hmod_pos : (0 : Int) < 2 ^ (8 * len) := by positivity
  have habsi : i.natAbs < 2 ^ (8 * len - 1) := habs
  have hlb : -(2 ^ (8 * len - 1) : Int) < i := by
    have h1 : (i.natAbs : Int) < (2 : Int) ^ (8 * len - 1) := by exact_mod_cast habsi
    rcases Int.natAbs_eq i with h | h <;> omega
  have hub : i < 2 ^ (8 * len - 1) := by
    have h1 : (i.natAbs : Int) < (2 : Int) ^ (8 * len - 1) := by exact_mod_cast habsi
    rcases Int.natAbs_eq i with h | h <;> omega
  have hsplitI : (2 : Int) ^ (8 * len) = 2 * 2 ^ (8 * len - 1) := by exact_mod_cast hsplit
  -- the encoded payload and its big-endian value
  have hemod : i % (2 ^ (8 * len) : Int) = if 0 ≤ i then i else i + 2 ^ (8 * len) := by
    by_cases h0 : 0 ≤ i
    · rw [if_pos h0]
      exact Int.emod_eq_of_lt h0 (by omega)
    · rw [if_neg h0]
      have : (i + 2 ^ (8 * len) * 1) % 2 ^ (8 * len) = i % 2 ^ (8 * len) :=
        Int.add_mul_emod_self_left i (2 ^ (8 * len)) 1
      rw [mul_one] at this
      rw [← this]
      exact Int.emod_eq_of_lt (by omega) (by omega)
  have hm_nonneg : 0 ≤ i % (2 ^ (8 * len) : Int) := Int.emod_nonneg i (by positivity)
  have hm_lt2 : i % (2 ^ (8 * len) : Int) < 2 ^ (8 * len) := Int.emod_lt_of_pos i hmod_pos
  have htoNat_lt : (i % (2 ^ (8 * len) : Int)).toNat < 256 ^ len := by
    rw [pow256_eq_pow2]
    have h2 : ((2 : Int) ^ (8 * len)) = ((2 ^ (8 * len) : Nat) : Int) := by push_cast; ring
    omega
  show _decode_int (natToBytesBE len (i % (2 ^ (8 * len) : Int)).toNat) = _
  have hlength : (natToBytesBE len (i % (2 ^ (8 * len) : Int)).toNat).length = len :=
    natToBytesBE_length _ _
  rw [_decode_int, if_neg (by omega)]
  simp only [hlength, natFromBytesBE_natToBytesBE_of_lt htoNat_lt]
  by_cases h0 : 0 ≤ i
  · have hv : i % (2 ^ (8 * len) : Int) = i := by rw [hemod, if_pos h0]
    have hcast : ((i % (2 ^ (8 * len) : Int)).toNat : Int) = i := by
      rw [hv]; exact Int.toNat_of_nonneg h0
    have hlt : ¬(2 ^ (8 * len - 1) ≤ (i % (2 ^ (8 * len) : Int)).toNat) := by
      have h1 : (2 : Int) ^ (8 * len - 1) = ((2 ^ (8 * len - 1) : Nat) : Int) := by
        push_cast; ring
      omega
    rw [if_neg hlt, hcast]
  · have hv : i % (2 ^ (8 * len) : Int) = i + 2 ^ (8 * len) := by rw [hemod, if_neg h0]
    have hcast : ((i % (2 ^ (8 * len) : Int)).toNat : Int) = i + 2 ^ (8 * len) := by
      rw [hv]; exact Int.toNat_of_nonneg (by omega)
    have hge : 2 ^ (8 * len - 1) ≤ (i % (2 ^ (8 * len) : Int)).toNat := by
      have h1 : (2 : Int) ^ (8 * len - 1) = ((2 ^ (8 * len - 1) : Nat) : Int) := by
        push_cast; ring
      omega
    rw [if_pos hge]
    have hfin : ((i % (2 ^ (8 * len) : Int)).toNat : Int) - 2 ^ (8 * len) = i := by omega
    rw [hfin]

/-!
UTF-8 round-trip lemmas.
-/
theorem utf8DecodeOne_shrinks {b n : Nat} {rest rest1 : List Nat}
    (h : utf8DecodeOne b rest = some (n, rest1)) : rest1.length ≤ rest.length := by
  rcases rest with _ | ⟨b1, _ | ⟨b2, _ | ⟨b3, rest3⟩⟩⟩ <;>
    (unfold utf8DecodeOne at h
     split_ifs at h <;>
       first
        | ((cases h) <;> omega)
        | (simp at h
           obtain ⟨-, -, hr⟩ := h
           subst hr
           simp only [List.length_cons, List.length_nil]
           omega))

theorem utf8DecodeGo_mono (f1 f2 : Nat) (bs : List Nat)
    (h1 : bs.length ≤ f1) (h2 : bs.length ≤ f2) :
    utf8DecodeGo f1 bs = utf8DecodeGo f2 bs := by
  induction f1 generalizing f2 bs with
  | zero =>
    cases bs with
    | nil => cases f2 <;> rfl
    | cons b r => simp at h1
  | succ k ih =>
    cases bs with
    | nil => cases f2 <;> rfl
    | cons b r =>
      cases f2 with
      | zero => simp at h2
      | succ k2 =>
        simp only [utf8DecodeGo]
        cases hd : utf8DecodeOne b r with
        | none => rfl
        | some pr =>
          obtain ⟨n, rest1⟩ := pr
          have hs := utf8DecodeOne_shrinks hd
          simp only [List.length_cons] at h1 h2
          show (utf8DecodeGo k rest1).map (fun cs => Char.ofNat n :: cs)
            = (utf8DecodeGo k2 rest1).map (fun cs => Char.ofNat n :: cs)
          rw [ih k2 rest1 (by omega) (by omega)]

theorem utf8EncodeChar_ne_nil (c : Char) : utf8EncodeChar c ≠ [] := by
  unfold utf8EncodeChar
  by_cases h1 : c.toNat < 128
  · simp [h1]
  · by_cases h2 : c.toNat < 2048 <;> by_cases h3 : c.toNat < 65536 <;>
      simp [h1, h2, h3]

theorem utf8DecodeOne_encodeChar (c : Char) (bs : List Nat) (b : Nat)
    (rest : List Nat) (he : utf8EncodeChar c = b :: rest) :
    utf8DecodeOne b (rest ++ bs) = some (c.toNat, bs) := by
  have hvalid : Nat.isValidChar c.toNat := c.valid
  have hrange : c.toNat < 55296 ∨ (57343 < c.toNat ∧ c.toNat < 1114112) := hvalid
  rw [utf8EncodeChar] at he
  by_cases h1 : c.toNat < 128
  · rw [if_pos h1] at he
    injection he with hb hrest
    subst hb; subst hrest
    simp only [List.nil_append]
    unfold utf8DecodeOne
    rw [if_pos h1]
  · rw [if_neg h1] at he
    by_cases h2 : c.toNat < 2048
    · rw [if_pos h2] at he
      injection he with hb hrest
      subst hb; subst hrest
      simp only [List.cons_append, List.nil_append]
      unfold utf8DecodeOne
      rw [if_neg (by omega), if_neg (by omega), if_pos (by omega)]
      have hcont : utf8Cont (128 + c.toNat % 64) = true := by
        simp only [utf8Cont]; simp; omega
      simp only [hcont, if_true]
      simp only [Option.some.injEq, Prod.mk.injEq]
      constructor
      · omega
      · trivial
    · rw [if_neg h2] at he
      by_cases h3 : c.toNat < 65536
      · rw [if_pos h3] at he
        injection he with hb hrest
        subst hb; subst hrest
        simp only [List.cons_append, List.nil_append]
        unfold utf8DecodeOne
        rw [if_neg (by omega), if_neg (by omega), if_neg (by omega),
          if_pos (by omega)]
        have hlow : utf8Lo3 (224 + c.toNat / 4096) (128 + c.toNat / 64 % 64) = true := by
          unfold utf8Lo3
          split_ifs with hb1 hb2
          · simp only [beq_iff_eq] at hb1
            simp
            omega
          · simp only [beq_iff_eq] at hb2
            simp
            omega
          · simp only [utf8Cont]
            simp
            omega
        have hcont : utf8Cont (128 + c.toNat % 64) = true := by
          simp only [utf8Cont]; simp; omega
        simp only [hlow, hcont, Bool.and_self, if_true]
        simp only [Option.some.injEq, Prod.mk.injEq]
        constructor
        · omega
        · trivial
      · rw [if_neg h3] at he
        injection he with hb hrest
        subst hb; subst hrest
        simp only [List.cons_append, List.nil_append]
        unfold utf8DecodeOne
        rw [if_neg (by omega), if_neg (by omega), if_neg (by omega),
          if_neg (by omega), if_pos (by omega)]
        have hlow : utf8Lo4 (240 + c.toNat / 262144) (128 + c.toNat / 4096 % 64) = true := by
          unfold utf8Lo4
          split_ifs with hb1 hb2
          · simp only [beq_iff_eq] at hb1
            simp
            omega
          · simp only [beq_iff_eq] at hb2
            simp
            omega
          · simp only [utf8Cont]
            simp
            omega
        have hc2 : utf8Cont (128 + c.toNat / 64 % 64) = true := by
          simp only [utf8Cont]; simp; omega
        have hc3 : utf8Cont (128 + c.toNat % 64) = true := by
          simp only [utf8Cont]; simp; omega
        simp only [hlow, hc2, hc3, Bool.and_self, if_true]
        simp only [Option.some.injEq, Prod.mk.injEq]
        constructor
        · omega
        · trivial

theorem utf8DecodeGo_encodeList (cs : List Char) :
    ∀ fuel, (utf8EncodeList cs).length ≤ fuel →
      utf8DecodeGo fuel (utf8EncodeList cs) = some cs := by
  induction cs with
  | nil => intro fuel _; cases fuel <;> rfl
  | cons c cs ih =>
    intro fuel hf
    obtain ⟨b, rest, he⟩ : ∃ b rest, utf8EncodeChar c = b :: rest := by
      cases hh : utf8EncodeChar c with
      | nil => exact absurd hh (utf8EncodeChar_ne_nil c)
      | cons x xs => exact ⟨x, xs, rfl⟩
    rw [utf8EncodeList, he, List.cons_append] at hf ⊢
    cases fuel with
    | zero => simp at hf
    | succ k =>
      simp only [utf8DecodeGo]
      rw [utf8DecodeOne_encodeChar c (utf8EncodeList cs) b rest he]
      show (utf8DecodeGo k (utf8EncodeList cs)).map (fun l => Char.ofNat c.toNat :: l)
        = some (c :: cs)
      simp only [List.length_cons, List.length_append] at hf
      rw [utf8DecodeGo_mono k (utf8EncodeList cs).length (utf8EncodeList cs)
        (by omega) (le_refl _)]
      rw [ih (utf8EncodeList cs).length (le_refl _)]
      simp [Char.ofNat_toNat]

theorem utf8DecodeList_encodeList (cs : List Char) :
    utf8DecodeList (utf8EncodeList cs) = some cs :=
  utf8DecodeGo_encodeList cs _ (le_refl _)

/-- Round-trip of the built-in text codec at the decoding end. -/
theorem decode_string_encodeList (cs : List Char) :
    _decode_string (utf8EncodeList cs) = .ok (.vStr (String.mk cs)) := by
  rw [_decode_string, utf8DecodeList_encodeList]

/-!
The default registry in explicit form, and per-kind round-trip lemmas.
-/
theorem default_registry_by_order :
    default_registry.codecs_by_order = builtinCodecs := rfl

theorem default_registry_by_tag :
    default_registry.codecs_by_tag =
      [(0, noneCodec), (5, boolCodec), (1, bytesCodec), (2, strCodec),
       (3, intCodec), (4, floatCodec), (6, protobufCodec)] := rfl

theorem roundtrip_none : defaultRoundtrip .vNone = .ok .vNone := rfl

theorem roundtrip_bool (b : Bool) :
    defaultRoundtrip (.vBool b) = .ok (.vBool b) := by
  cases b <;> rfl

theorem roundtrip_bytes (bs : List Nat) :
    defaultRoundtrip (.vBytes bs) = .ok (.vBytes bs) := rfl

theorem roundtrip_protobuf (bs : List Nat) :
    defaultRoundtrip (.vProtobuf bs) = .ok (.vBytes bs) := rfl

theorem roundtrip_int (i : Int) :
    defaultRoundtrip (.vInt i) = .ok (.vInt i) := by
  have henc : default_registry.encode (.vInt i) = .ok (3 :: _encode_int i) := rfl
  rw [defaultRoundtrip, henc]
  show _decode_int (_encode_int i) = _
  exact decode_encode_int i

theorem roundtrip_str (s : String) :
    defaultRoundtrip (.vStr s) = .ok (.vStr s) := by
  have henc : default_registry.encode (.vStr s)
      = .ok (2 :: utf8EncodeList s.data) := rfl
  rw [defaultRoundtrip, henc]
  show _decode_string (utf8EncodeList s.data) = _
  rw [decode_string_encodeList]

theorem roundtrip_float (bits : Nat) (h64 : bits < 2 ^ 64) :
    defaultRoundtrip (.vFloat bits) = .ok (.vFloat bits) := by
  have henc : default_registry.encode (.vFloat bits)
      = .ok (4 :: natToBytesBE 8 bits) := rfl
  rw [defaultRoundtrip, henc]
  show _decode_float (natToBytesBE 8 bits) = _
  rw [_decode_float, if_neg (by rw [natToBytesBE_length]; exact fun h => h rfl)]
  rw [natFromBytesBE_natToBytesBE_of_lt (by rw [pow256_eq_pow2]; exact h64)]

theorem pyEq_refl_float (bits : Nat) (hna : isNaNBits bits = false) :
    pyEq (.vFloat bits) (.vFloat bits) = true := by
  show floatEqBits bits bits = true
  unfold floatEqBits
  rw [hna]
  simp only [Bool.or_self, Bool.false_eq_true, if_false]
  split_ifs <;> simp

/-- Claim C1, counterexample: the round-trip `decode(encode(v)) == v` fails
on the built-in kinds exactly twice.  For the NaN float (bit pattern
0x7ff8000000000000) the decoded value is bit-identical but Python float
equality makes `NaN == NaN` false; for a structured (protobuf) message the
default registry decodes tag 0x06 to the raw serialized bytes, which is a
`bytes` object, not a value equal to the message. -/
theorem C1_counterexample :
    defaultRoundtrip (.vFloat 9221120237041090560)
        = .ok (.vFloat 9221120237041090560)
      ∧ isNaNBits 9221120237041090560 = true
      ∧ pyEq (.vFloat 9221120237041090560) (.vFloat 9221120237041090560) = false
      ∧ defaultRoundtrip (.vProtobuf [1, 2]) = .ok (.vBytes [1, 2])
      ∧ pyEq (.vBytes [1, 2]) (.vProtobuf [1, 2]) = false
      ∧ PyValue.vBytes [1, 2] ≠ PyValue.vProtobuf [1, 2] :=
  ⟨by decide, by decide, by decide, by decide, by decide, by decide⟩

/-- Claim C1 (amended): for every well-formed value of a built-in kind
except NaN floats and structured messages — in particular `None`, both
booleans, empty and non-empty bytes, empty and non-empty text, every
integer (including 0 and -1), and every non-NaN float (including
infinities and zeros) — decoding the default-registry encoding yields the
value back and Python `==` on it holds.  A structured message decodes to
its raw serialized bytes; a NaN float decodes to the bit-identical NaN,
which compares unequal to itself. -/
theorem C1_roundtrip_amended (v : PyValue) (hwf : wfValue v = true) :
    (builtinRoundtrippable v = true →
      defaultRoundtrip v = .ok v ∧ pyEq v v = true) ∧
    (∀ bs, v = .vProtobuf bs → defaultRoundtrip v = .ok (.vBytes bs)) ∧
    (∀ bits, v = .vFloat bits → isNaNBits bits = true →
      defaultRoundtrip v = .ok v ∧ pyEq v v = false) := by
  refine ⟨?_, ?_, ?_⟩
  · intro hg
    cases v with
    | vNone => exact ⟨roundtrip_none, rfl⟩
    | vBool b => exact ⟨roundtrip_bool b, by cases b <;> rfl⟩
    | vInt i => exact ⟨roundtrip_int i, by simp [pyEq]⟩
    | vFloat bits =>
      have h64 : bits < 2 ^ 64 := by simpa [wfValue] using hwf
      have hna : isNaNBits bits = false := by
        simpa [builtinRoundtrippable] using hg
      exact ⟨roundtrip_float bits h64, pyEq_refl_float bits hna⟩
    | vBytes bs => exact ⟨roundtrip_bytes bs, by simp [pyEq]⟩
    | vStr s => exact ⟨roundtrip_str s, by simp [pyEq]⟩
    | vProtobuf bs => simp [builtinRoundtrippable] at hg
    | vObj cn i => simp [builtinRoundtrippable] at hg
  · rintro bs rfl
    exact roundtrip_protobuf bs
  · rintro bits rfl hna
    have h64 : bits < 2 ^ 64 := by simpa [wfValue] using hwf
    refine ⟨roundtrip_float bits h64, ?_⟩
    show floatEqBits bits bits = false
    unfold floatEqBits
    rw [hna]
    simp

/-- Witness for C1 at the concrete edge value `-1`. -/
theorem C1_roundtrip_amended_witness :
    wfValue (.vInt (-1)) = true ∧
    ((builtinRoundtrippable (.vInt (-1)) = true →
        defaultRoundtrip (.vInt (-1)) = .ok (.vInt (-1))
          ∧ pyEq (.vInt (-1)) (.vInt (-1)) = true) ∧
      (∀ bs, PyValue.vInt (-1) = .vProtobuf bs →
        defaultRoundtrip (.vInt (-1)) = .ok (.vBytes bs)) ∧
      (∀ bits, PyValue.vInt (-1) = .vFloat bits → isNaNBits bits = true →
        defaultRoundtrip (.vInt (-1)) = .ok (.vInt (-1))
          ∧ pyEq (.vInt (-1)) (.vInt (-1)) = false)) :=
  ⟨by decide, C1_roundtrip_amended (.vInt (-1)) (by decide)⟩

theorem length_dropWhile_le (p : Char → Bool) (l : List Char) :
    (l.dropWhile p).length ≤ l.length := by
  induction l with
  | nil => simp [List.dropWhile]
  | cons c rest ih =>
    rw [List.dropWhile]
    split
    · simp
      omega
    · simp

theorem readPlaceholder_shrinks {cs name rest1 : List Char}
    (h : readPlaceholder cs = some (name, rest1)) : rest1.length < cs.length := by
  unfold readPlaceholder at h
  have hd := length_dropWhile_le isIdentChar cs
  cases htw : cs.takeWhile isIdentChar with
  | nil => rw [htw] at h; cases h
  | cons c name1 =>
    cases hdw : cs.dropWhile isIdentChar with
    | nil => rw [htw, hdw] at h; cases h
    | cons d rest2 =>
      rw [htw, hdw] at h
      rw [hdw] at hd
      simp at h
      obtain ⟨-, -, h4⟩ := h
      subst h4
      simp only [List.length_cons] at hd
      omega

/-!
Probe-order lemmas for `CodecRegistry.encode`.
-/
theorem encodeFirst_skip (pre rest : List Codec) (v : PyValue)
    (h : pre.all (fun c0 => !c0.can_encode v) = true) :
    encodeFirst (pre ++ rest) v = encodeFirst rest v := by
  induction pre with
  | nil => rfl
  | cons c0 pre ih =>
    simp only [List.all_cons, Bool.and_eq_true, Bool.not_eq_true'] at h
    rw [List.cons_append, encodeFirst, if_neg (by simp [h.1])]
    exact ih (by simp [List.all_eq_true] at h ⊢; exact h.2)

theorem encodeFirst_nomatch (cs : List Codec) (v : PyValue)
    (h : cs.all (fun c0 => !c0.can_encode v) = true) :
    encodeFirst cs v = .error msgUnsupportedType := by
  have := encodeFirst_skip cs [] v h
  rw [List.append_nil] at this
  rw [this]
  rfl

/-- Claim C4: `encode` probes codecs in registration order, the first
codec whose capability predicate accepts the value wins and its payload is
prefixed with its single tag byte; if no codec accepts, a serialization
error ("Unsupported packet type") is raised.  In the default registry the
tag order of the probe sequence is `[0x00, 0x05, 0x01, 0x02, 0x03, 0x04,
0x06]` — the boolean codec (0x05) strictly before the integer codec
(0x03) — and encoding a boolean always yields tag byte 0x05. -/
theorem C4_encode_probe :
    (∀ (reg : CodecRegistry) (v : PyValue) (pre post : List Codec)
      (c : Codec) (t : Int),
      reg.codecs_by_order = pre ++ c :: post →
      pre.all (fun c0 => !c0.can_encode v) = true →
      c.can_encode v = true → c.tag = .int t → 0 ≤ t ∧ t < 256 →
      reg.encode v = .ok (t.toNat :: c.encode v)) ∧
    (∀ (reg : CodecRegistry) (v : PyValue),
      reg.codecs_by_order.all (fun c0 => !c0.can_encode v) = true →
      reg.encode v = .error msgUnsupportedType) ∧
    (default_registry.codecs_by_order.map (fun c => c.tag)
      = [.int 0, .int 5, .int 1, .int 2, .int 3, .int 4, .int 6]) ∧
    (∀ b, default_registry.encode (.vBool b)
      = .ok [5, if b then 1 else 0]) := by
  refine ⟨?_, ?_, rfl, ?_⟩
  · intro reg v pre post c t horder hpre hc htag hrange
    show encodeFirst reg.codecs_by_order v = _
    rw [horder, encodeFirst_skip pre (c :: post) v hpre, encodeFirst,
      if_pos hc, htag]
    show (if 0 ≤ t ∧ t < 256 then Except.ok t.toNat
      else Except.error msgBytesRange).map (fun b => b :: c.encode v) = _
    rw [if_pos hrange]
    rfl
  · intro reg v h
    exact encodeFirst_nomatch _ v h
  · intro b
    cases b <;> rfl

/-- Witness for C4: probing the default registry with the integer `7`
(first four codecs reject it, the integer codec accepts it) and with an
unsupported `dict` value. -/
theorem C4_encode_probe_witness :
    default_registry.codecs_by_order
        = [noneCodec, boolCodec, bytesCodec, strCodec]
          ++ intCodec :: [floatCodec, protobufCodec] ∧
    ([noneCodec, boolCodec, bytesCodec, strCodec].all
      (fun c0 => !c0.can_encode (.vInt 7)) = true) ∧
    intCodec.can_encode (.vInt 7) = true ∧
    default_registry.encode (.vInt 7)
      = .ok ((3 : Int).toNat :: intCodec.encode (.vInt 7)) ∧
    (default_registry.codecs_by_order.all
      (fun c0 => !c0.can_encode (.vObj "dict" 0)) = true) ∧
    default_registry.encode (.vObj "dict" 0) = .error msgUnsupportedType :=
  ⟨rfl, rfl, rfl,
   C4_encode_probe.1 default_registry (.vInt 7)
     [noneCodec, boolCodec, bytesCodec, strCodec] [floatCodec, protobufCodec]
     intCodec 3 rfl rfl rfl rfl (by norm_num),
   rfl,
   C4_encode_probe.2.1 default_registry (.vObj "dict" 0) rfl⟩

theorem tagOkB_spec (c : Codec) (h : tagOkB c = true) :
    ∃ n, c.tag = .int n ∧ 0 ≤ n ∧ n ≤ 255 ∧ tagNat c = n.toNat := by
  unfold tagOkB at h
  cases hc : c.tag with
  | int n =>
    rw [hc] at h
    simp only [decide_eq_true_eq] at h
    exact ⟨n, rfl, h.1, h.2, by simp [tagNat, hc]⟩
  | bool b => rw [hc] at h; cases h
  | other => rw [hc] at h; cases h

theorem tagNat_int (c : Codec) (t : Int) (h : c.tag = .int t) :
    tagNat c = t.toNat := by
  unfold tagNat
  rw [h]

theorem dictLookup_map_find (l : List Codec) (k : Nat) :
    dictLookup (l.map (fun c => (tagNat c, c))) k
      = l.find? (fun c => tagNat c == k) := by
  induction l with
  | nil => rfl
  | cons c l ih =>
    simp only [List.map_cons, dictLookup]
    by_cases h : tagNat c = k
    · rw [if_pos h, List.find?_cons_of_pos _ (by simp [h])]
    · rw [if_neg h, List.find?_cons_of_neg _ (by simp [h]), ih]

theorem dictLookup_dictSet_self (d : List (Nat × Codec)) (k : Nat) (v : Codec) :
    dictLookup (dictSet d k v) k = some v := by
  induction d with
  | nil => simp [dictSet, dictLookup]
  | cons kv d ih =>
    obtain ⟨k1, v1⟩ := kv
    rw [dictSet]
    by_cases h : k1 = k
    · rw [if_pos h, dictLookup, if_pos rfl]
    · rw [if_neg h, dictLookup, if_neg h, ih]

theorem filter_eq_nil_of_all_not (p : Codec → Bool) (l : List Codec)
    (h : ∀ x ∈ l, p x = false) : l.filter p = [] := by
  induction l with
  | nil => rfl
  | cons c l ih =>
    rw [List.filter_cons, if_neg (by simp [h c (by simp)])]
    exact ih (fun x hx => h x (by simp [hx]))

theorem replaceFirst_spec (l : List Codec) (t : Int) (c c0 : Codec)
    (ht0 : 0 ≤ t) (htc : c.tag = .int t)
    (hok : l.all tagOkB = true)
    (hnd : (l.map tagNat).Nodup)
    (hfind : l.find? (fun c1 => tagNat c1 == t.toNat) = some c0) :
    ∃ i, i < l.length ∧ l.get? i = some c0 ∧
      replaceFirstByTag l (.int t) c = l.set i c ∧
      ((l.set i c).filter (fun c1 => tagNat c1 == t.toNat)).length = 1 := by
  induction l with
  | nil => cases hfind
  | cons c1 l ih =>
    simp only [List.all_cons, Bool.and_eq_true] at hok
    simp only [List.map_cons, List.nodup_cons] at hnd
    obtain ⟨n, hn, hn0, hn255, hnv⟩ := tagOkB_spec c1 hok.1
    by_cases h : tagNat c1 = t.toNat
    · have hc0 : c0 = c1 := by
        rw [List.find?_cons_of_pos _ (by simp [h])] at hfind
        injection hfind with h1
        exact h1.symm
      subst hc0
      refine ⟨0, by simp, by simp, ?_, ?_⟩
      · rw [replaceFirstByTag, if_pos ?_]
        · simp [List.set]
        · rw [hn]
          show (n == t) = true
          rw [hnv] at h
          simp only [beq_iff_eq]
          omega
      · simp only [List.set]
        rw [List.filter_cons, if_pos (by rw [tagNat_int c t htc]; simp)]
        have hrest : l.filter (fun c1 => tagNat c1 == t.toNat) = [] := by
          apply filter_eq_nil_of_all_not
          intro x hx
          have hmem : tagNat x ∈ l.map tagNat := List.mem_map_of_mem tagNat hx
          simp only [beq_eq_false_iff_ne, ne_eq]
          intro hxx
          rw [hxx, ← h] at hmem
          exact hnd.1 hmem
        rw [hrest]
        rfl
    · have hfind2 : l.find? (fun c1 => tagNat c1 == t.toNat) = some c0 := by
        rw [List.find?_cons_of_neg _ (by simp [h])] at hfind
        exact hfind
      obtain ⟨i, hi, hget, hrepl, hfilter⟩ := ih hok.2 hnd.2 hfind2
      refine ⟨i + 1, by simp only [List.length_cons]; omega, by simpa using hget,
        ?_, ?_⟩
      · rw [replaceFirstByTag, if_neg ?_, hrepl]
        · rfl
        · rw [hn]
          show ¬(n == t) = true
          rw [hnv] at h
          simp only [beq_iff_eq]
          omega
      · show ((c1 :: l.set i c).filter (fun c1 => tagNat c1 == t.toNat)).length = 1
        rw [List.filter_cons, if_neg (by simp [h])]
        exact hfilter

theorem register_int_occupied (reg : CodecRegistry) (c c0 : Codec) (t : Int)
    (htag : c.tag = .int t) (h0 : 0 ≤ t) (h255 : t ≤ 255)
    (hex : dictLookup reg.codecs_by_tag t.toNat = some c0) :
    reg.register c false = (reg, .error msgTagAlreadyRegistered) ∧
    reg.register c true =
      ({ codecs_by_tag := dictSet reg.codecs_by_tag t.toNat c,
         codecs_by_order := replaceFirstByTag reg.codecs_by_order c.tag c },
       .ok ()) := by
  constructor <;>
  · simp only [CodecRegistry.register, htag, MAX_CODEC_TAG, hex]
    rw [if_neg (by omega)]
    simp

/-- Claim C5: registering a codec on an occupied tag fails without
`override` and leaves the registry unchanged (the pair model returns the
input state); with `override` it succeeds and replaces the existing codec
at its original position in the probe order (the list is `set` at that
index, its length unchanged) and on the tag index, after which exactly one
codec in the probe order carries that tag.  The `RegistryWf` hypothesis
states the dict/list lockstep invariant that `register` maintains from the
empty registry. -/
theorem C5_register_override (reg : CodecRegistry) (c c0 : Codec) (t : Int)
    (hwf : RegistryWf reg) (htag : c.tag = .int t) (h0 : 0 ≤ t) (h255 : t ≤ 255)
    (hex : dictLookup reg.codecs_by_tag t.toNat = some c0) :
    reg.register c false = (reg, .error msgTagAlreadyRegistered) ∧
    (reg.register c true).2 = .ok () ∧
    (∃ i, i < reg.codecs_by_order.length ∧
      reg.codecs_by_order.get? i = some c0 ∧
      (reg.register c true).1.codecs_by_order = reg.codecs_by_order.set i c ∧
      ((reg.register c true).1.codecs_by_order.filter
        (fun c1 => tagNat c1 == t.toNat)).length = 1) ∧
    dictLookup (reg.register c true).1.codecs_by_tag t.toNat = some c ∧
    (reg.register c true).1.codecs_by_order.length
      = reg.codecs_by_order.length := by
  obtain ⟨hpar, hnd, hok⟩ := hwf
  obtain ⟨hfalse, htrue⟩ := register_int_occupied reg c c0 t htag h0 h255 hex
  have hfind : reg.codecs_by_order.find? (fun c1 => tagNat c1 == t.toNat)
      = some c0 := by
    rw [← dictLookup_map_find, ← hpar]
    exact hex
  obtain ⟨i, hi, hget, hrepl, hfilter⟩ :=
    replaceFirst_spec reg.codecs_by_order t c c0 h0 htag hok hnd hfind
  refine ⟨hfalse, by rw [htrue], ⟨i, hi, hget, ?_, ?_⟩, ?_, ?_⟩
  · rw [htrue]
    show replaceFirstByTag reg.codecs_by_order c.tag c = _
    rw [htag, hrepl]
  · rw [htrue]
    show (replaceFirstByTag reg.codecs_by_order c.tag c |>.filter
      (fun c1 => tagNat c1 == t.toNat)).length = 1
    rw [htag, hrepl]
    exact hfilter
  · rw [htrue]
    exact dictLookup_dictSet_self reg.codecs_by_tag t.toNat c
  · rw [htrue]
    show (replaceFirstByTag reg.codecs_by_order c.tag c).length = _
    rw [htag, hrepl, List.length_set]

/-- Witness for C5 on the concrete two-codec registry, overriding tag 7. -/
theorem C5_register_override_witness :
    RegistryWf customRegistry ∧
    customCodec7b.tag = .int 7 ∧
    dictLookup customRegistry.codecs_by_tag (7 : Int).toNat = some customCodec7 ∧
    (customRegistry.register customCodec7b false
        = (customRegistry, .error msgTagAlreadyRegistered) ∧
      (customRegistry.register customCodec7b true).2 = .ok () ∧
      (∃ i, i < customRegistry.codecs_by_order.length ∧
        customRegistry.codecs_by_order.get? i = some customCodec7 ∧
        (customRegistry.register customCodec7b true).1.codecs_by_order
          = customRegistry.codecs_by_order.set i customCodec7b ∧
        ((customRegistry.register customCodec7b true).1.codecs_by_order.filter
          (fun c1 => tagNat c1 == (7 : Int).toNat)).length = 1) ∧
      dictLookup (customRegistry.register customCodec7b true).1.codecs_by_tag
          (7 : Int).toNat = some customCodec7b ∧
      (customRegistry.register customCodec7b true).1.codecs_by_order.length
        = customRegistry.codecs_by_order.length) :=
  ⟨⟨rfl, by decide, rfl⟩, rfl, rfl,
   C5_register_override customRegistry customCodec7b customCodec7 7
     ⟨rfl, by decide, rfl⟩ rfl (by decide) (by decide) rfl⟩

theorem register_tag_bool (reg : CodecRegistry) (c : Codec) (b : Bool)
    (ov : Bool) (htag : c.tag = .bool b) :
    reg.register c ov = (reg, .error msgTagNotInt) := by
  simp only [CodecRegistry.register, htag]

theorem register_tag_other (reg : CodecRegistry) (c : Codec) (ov : Bool)
    (htag : c.tag = .other) :
    reg.register c ov = (reg, .error msgTagNotInt) := by
  simp only [CodecRegistry.register, htag]

theorem register_tag_int (reg : CodecRegistry) (c : Codec) (t : Int) (ov : Bool)
    (htag : c.tag = .int t) :
    reg.register c ov =
      (if ¬(0 ≤ t ∧ t ≤ MAX_CODEC_TAG) then (reg, .error msgTagOutOfRange)
       else
        match dictLookup reg.codecs_by_tag t.toNat with
        | some _ =>
          if ¬ov then (reg, .error msgTagAlreadyRegistered)
          else
            ({ codecs_by_tag := dictSet reg.codecs_by_tag t.toNat c,
               codecs_by_order :=
                 replaceFirstByTag reg.codecs_by_order (.int t) c },
             .ok ())
        | none =>
          ({ codecs_by_tag := dictSet reg.codecs_by_tag t.toNat c,
             codecs_by_order := reg.codecs_by_order ++ [c] },
           .ok ())) := by
  simp only [CodecRegistry.register, htag]

/-- Claim C10: `register` rejects a codec whose tag attribute is a boolean
(True or False) with the "must be an integer" serialization error even
though bool is an int subtype whose values lie in 0..255, leaving the
registry unchanged; a registration can only succeed when the tag is a
genuine non-bool int in 0..255; and a genuine int tag in range on a free
tag is accepted. -/
theorem C10_bool_tag_rejected :
    (∀ (reg : CodecRegistry) (c : Codec) (b : Bool) (override : Bool),
      c.tag = .bool b →
      reg.register c override = (reg, .error msgTagNotInt)) ∧
    (∀ (reg : CodecRegistry) (c : Codec) (override : Bool)
      (reg2 : CodecRegistry),
      reg.register c override = (reg2, .ok ()) →
      ∃ n, c.tag = .int n ∧ 0 ≤ n ∧ n ≤ 255) ∧
    (∀ (reg : CodecRegistry) (c : Codec) (n : Int),
      c.tag = .int n → 0 ≤ n → n ≤ 255 →
      dictLookup reg.codecs_by_tag n.toNat = none →
      (reg.register c false).2 = .ok ()) := by
  refine ⟨?_, ?_, ?_⟩
  · intro reg c b ov htag
    exact register_tag_bool reg c b ov htag
  · intro reg c ov reg2 hok
    cases htag : c.tag with
    | bool b => rw [register_tag_bool reg c b ov htag] at hok; simp at hok
    | other => rw [register_tag_other reg c ov htag] at hok; simp at hok
    | int n =>
      refine ⟨n, rfl, ?_⟩
      rw [register_tag_int reg c n ov htag] at hok
      by_cases hr : 0 ≤ n ∧ n ≤ MAX_CODEC_TAG
      · simpa [MAX_CODEC_TAG] using hr
      · rw [if_pos hr] at hok
        simp at hok
  · intro reg c n htag h0 h255 hnone
    rw [register_tag_int reg c n false htag, if_neg (by simp only [MAX_CODEC_TAG]; omega),
      hnone]

/-- Witness for C10: the bool-tagged codec is rejected on the empty
registry, and the int-tagged codec `customCodec7` is accepted there. -/
theorem C10_bool_tag_rejected_witness :
    boolTagCodec.tag = .bool true ∧
    emptyRegistry.register boolTagCodec false
      = (emptyRegistry, .error msgTagNotInt) ∧
    customCodec7.tag = .int 7 ∧
    dictLookup emptyRegistry.codecs_by_tag (7 : Int).toNat = none ∧
    (emptyRegistry.register customCodec7 false).2 = .ok () :=
  ⟨rfl,
   C10_bool_tag_rejected.1 emptyRegistry boolTagCodec true false rfl,
   rfl, rfl,
   C10_bool_tag_rejected.2.2 emptyRegistry customCodec7 7 rfl (by decide)
     (by decide) rfl⟩

/-- Claim C6, counterexample to the "minimum-length" gloss: the code
encodes `-128` with `(bit_length(128) + 8) // 8 = 2` bytes, `0xff 0x80`,
although the one-byte string `0x80` already decodes to `-128` under the
same signed big-endian decoding — so the produced encoding is not the
minimum-length two's-complement encoding. -/
theorem C6_counterexample :
    _encode_int (-128) = [255, 128] ∧
    (_encode_int (-128)).length = 2 ∧
    _decode_int [128] = .ok (.vInt (-128)) ∧
    ([128] : List Nat).length < (_encode_int (-128)).length :=
  ⟨by decide, by decide, by decide, by decide⟩

/-- Claim C6 (amended): the built-in integer codec encodes every int `v`
as big-endian two's-complement in exactly `(v.bit_length() + 8) // 8`
bytes (not always the minimum-length signed encoding), decoding inverts
encoding for every integer, and decoding a zero-length payload fails with
the serialization error. -/
theorem C6_int_codec (i : Int) :
    (_encode_int i).length = (bitLen i.natAbs + 8) / 8 ∧
    _decode_int (_encode_int i) = .ok (.vInt i) ∧
    _decode_int [] = .error msgInvalidIntLen :=
  ⟨natToBytesBE_length _ _, decode_encode_int i, rfl⟩

/-- Claim C7: `deserialize` fails with the size-guard serialization error
whenever the payload after the tag byte (`len(data) - 1`) exceeds
`MAX_PAYLOAD_SIZE` (1 MiB), and otherwise hands the data to the selected
registry's tag-based decode; data whose payload is exactly 1 MiB
(`len(data) = MAX_PAYLOAD_SIZE + 1`) is not rejected by the guard. -/
theorem C7_size_guard (data : List Nat) (registry : Option CodecRegistry)
    (hne : data ≠ []) :
    (MAX_PAYLOAD_SIZE < data.length - 1 →
      deserialize data registry = .error msgPayloadTooLarge) ∧
    (data.length - 1 ≤ MAX_PAYLOAD_SIZE →
      deserialize data registry = (registry.getD default_registry).decode data) ∧
    (data.length = MAX_PAYLOAD_SIZE + 1 →
      deserialize data registry = (registry.getD default_registry).decode data) := by
  refine ⟨?_, ?_, ?_⟩ <;> intro h <;> rw [deserialize, if_neg hne]
  · rw [if_pos h]
  · rw [if_neg (by omega)]
  · rw [if_neg (by omega)]

theorem replicateBigNeNil (n : Nat) (h : 0 < n) :
    List.replicate n (0 : Nat) ≠ [] := by
  intro hh
  have hl := congrArg List.length hh
  rw [List.length_replicate] at hl
  simp only [List.length_nil] at hl
  omega

/-- Witness for C7 at a 1 MiB + 2 input (rejected) and a 1 MiB + 1 input
(passes the guard and reaches the registry decode). -/
theorem C7_size_guard_witness :
    List.replicate 1048578 (0 : Nat) ≠ [] ∧
    MAX_PAYLOAD_SIZE < (List.replicate 1048578 (0 : Nat)).length - 1 ∧
    deserialize (List.replicate 1048578 0) none = .error msgPayloadTooLarge ∧
    (List.replicate 1048577 (0 : Nat)).length = MAX_PAYLOAD_SIZE + 1 ∧
    deserialize (List.replicate 1048577 0) none
      = ((none : Option CodecRegistry).getD default_registry).decode
          (List.replicate 1048577 0) :=
  ⟨replicateBigNeNil 1048578 (by omega),
   by simp only [MAX_PAYLOAD_SIZE, List.length_replicate]; try omega,
   (C7_size_guard _ none (replicateBigNeNil 1048578 (by omega))).1
     (by simp only [MAX_PAYLOAD_SIZE, List.length_replicate]; try omega),
   by simp only [MAX_PAYLOAD_SIZE, List.length_replicate],
   (C7_size_guard _ none (replicateBigNeNil 1048577 (by omega))).2.2
     (by simp only [MAX_PAYLOAD_SIZE, List.length_replicate]; try omega)⟩

/-!
Dispatch step lemmas and the first-match property.
-/
theorem dispatchList_cons_of_match
    (env : Nat → List (String × PyValue) → PyValue) (r : RouteM)
    (rest : List RouteM) (topic : String) (packet : PyValue)
    (injectors : List (String × PyValue)) (caps : List (String × String))
    (h : matchTopic r.pats topic = some caps) :
    dispatchList env (r :: rest) topic packet injectors
      = (routeArgs r caps packet injectors).map
          (fun args => ([(r.handlerHid, args)], some (env r.handlerHid args))) := by
  show (match matchTopic r.pats topic with
    | none => dispatchList env rest topic packet injectors
    | some caps =>
      (routeArgs r caps packet injectors).map
        (fun args => ([(r.handlerHid, args)], some (env r.handlerHid args)))) = _
  rw [h]

theorem dispatchList_cons_of_nomatch
    (env : Nat → List (String × PyValue) → PyValue) (r : RouteM)
    (rest : List RouteM) (topic : String) (packet : PyValue)
    (injectors : List (String × PyValue))
    (h : matchTopic r.pats topic = none) :
    dispatchList env (r :: rest) topic packet injectors
      = dispatchList env rest topic packet injectors := by
  show (match matchTopic r.pats topic with
    | none => dispatchList env rest topic packet injectors
    | some caps =>
      (routeArgs r caps packet injectors).map
        (fun args => ([(r.handlerHid, args)], some (env r.handlerHid args)))) = _
  rw [h]

/-- Claim C3 (amended): over any enumeration of the route set, dispatch
invokes exactly the first route in that enumeration whose compiled pattern
matches the topic — earlier non-matching routes are skipped, later routes
are never reached — and when no route matches, no handler is invoked and
`None` is returned.  Dispatch is a function of the enumeration, so a fixed
enumeration yields the same chosen route on every repeated call; but the
enumeration order of the underlying Python set is not the registration
order (see the counterexample). -/
theorem C3_dispatch_first_match
    (env : Nat → List (String × PyValue) → PyValue)
    (pre post : List RouteM) (r : RouteM) (topic : String) (packet : PyValue)
    (injectors : List (String × PyValue)) (caps : List (String × String))
    (hpre : pre.all (fun r0 => (matchTopic r0.pats topic).isNone) = true)
    (hr : matchTopic r.pats topic = some caps) :
    dispatchList env (pre ++ r :: post) topic packet injectors
      = (routeArgs r caps packet injectors).map
          (fun args => ([(r.handlerHid, args)], some (env r.handlerHid args)))
    ∧ (∀ rs : List RouteM,
        rs.all (fun r0 => (matchTopic r0.pats topic).isNone) = true →
        dispatchList env rs topic packet injectors = .ok ([], none)) := by
  constructor
  · induction pre with
    | nil =>
      rw [List.nil_append]
      exact dispatchList_cons_of_match env r post topic packet injectors caps hr
    | cons r0 pre ih =>
      simp only [List.all_cons, Bool.and_eq_true, Option.isNone_iff_eq_none] at hpre
      rw [List.cons_append,
        dispatchList_cons_of_nomatch env r0 _ topic packet injectors hpre.1]
      exact ih (by simp only [List.all_eq_true]
                   simp only [List.all_eq_true] at hpre
                   exact hpre.2)
  · intro rs hall
    induction rs with
    | nil => rfl
    | cons r0 rs ih =>
      simp only [List.all_cons, Bool.and_eq_true, Option.isNone_iff_eq_none] at hall
      rw [dispatchList_cons_of_nomatch env r0 rs topic packet injectors hall.1]
      exact ih (by simp only [List.all_eq_true]
                   simp only [List.all_eq_true] at hall
                   exact hall.2)

/-- Claim C8 (amended): a successful registration puts the new route into
the router's route set — appended at the end of the contents when no equal
route is present, and absorbed (the collection unchanged) when a route
equal in every field (same template, same handler, same options) is
already present.  Routes equal in all fields are deduplicated by the set;
routes differing in any field remain distinct entries. -/
theorem C8_route_add (router : Router) (topic_pattern : String)
    (handler : HandlerSig) (qos : Nat) (options properties : Option Unit)
    (timeout : Option Int) (router2 : Router)
    (hok : router.route topic_pattern qos options properties timeout handler
      = .ok router2) :
    router2.prefixStr = router.prefixStr ∧
    mkRoute (router.prefixStr ++ "/" ++ topic_pattern) handler qos options
        properties timeout ∈ router2.routes ∧
    (mkRoute (router.prefixStr ++ "/" ++ topic_pattern) handler qos options
        properties timeout ∈ router.routes → router2.routes = router.routes) ∧
    (mkRoute (router.prefixStr ++ "/" ++ topic_pattern) handler qos options
        properties timeout ∉ router.routes →
      router2.routes = router.routes
        ++ [mkRoute (router.prefixStr ++ "/" ++ topic_pattern) handler qos
              options properties timeout]) := by
  unfold Router.route at hok
  simp only [Bind.bind, Except.bind] at hok
  cases hv : _validate_topic_pattern (router.prefixStr ++ "/" ++ topic_pattern) with
  | error e => rw [hv] at hok; simp at hok
  | ok u =>
    cases u
    rw [hv] at hok
    simp only [] at hok
    cases hh : _validate_route_handler handler
        (router.prefixStr ++ "/" ++ topic_pattern) with
    | error e => rw [hh] at hok; simp at hok
    | ok u2 =>
      cases u2
      rw [hh] at hok
      simp only [pure, Except.pure, Except.ok.injEq] at hok
      subst hok
      refine ⟨rfl, ?_, ?_, ?_⟩
      · show _ ∈ setAdd _ router.routes
        unfold setAdd
        split
        · assumption
        · simp
      · intro hmem
        show setAdd _ router.routes = router.routes
        unfold setAdd
        rw [if_pos hmem]
      · intro hmem
        show setAdd _ router.routes = _
        unfold setAdd
        rw [if_neg hmem]

/-- Claim C2 (code bug evaluation): registering the spec's end-to-end
handler `async def handler(name, count, *, db)` under `"greet/\x7bname\x7d"`
on a prefix-less router raises the route-validation error "more than one
packet parameter" — `_validate_route_handler` counts the keyword-only
injected parameter `db` as a packet parameter, contradicting
`_Route._get_injector_parameters` and the repository's own example app.
Even with the injector removed so that registration succeeds, the
prefix join (`"/".join((prefix, pattern))` with empty prefix) stores the
pattern `/greet/\x7bname\x7d`, so dispatch on the claim's topic
`greet/alice` matches nothing and invokes no handler; the handler is only
reached on `/greet/alice`. -/
theorem C2_code_evaluation :
    Router.route ⟨"", []⟩ "greet/\x7bname\x7d" 0 none none none greetHandler
        = .error msgMultiplePacket
      ∧ Router.route ⟨"", []⟩ "greet/\x7bname\x7d" 0 none none none
          greetHandlerNoDb = .ok ⟨"", [greetRouteNoDb]⟩
      ∧ dispatchList handlerEnv [greetRouteNoDb] "greet/alice" (.vInt 5)
          [("db", .vObj "dict" 7)] = .ok ([], none)
      ∧ dispatchList handlerEnv [greetRouteNoDb] "/greet/alice" (.vInt 5)
          [("db", .vObj "dict" 7)]
        = .ok ([(2, [("name", .vStr "alice"), ("count", .vInt 5)])],
            some (.vInt 2)) :=
  ⟨by decide, by decide, by decide, by decide⟩

/-- Claim C3, counterexample: registering `a/\x7bx\x7d` then `a/b` on a
prefix-less router stores the set `{/a/\x7bx\x7d, /a/b}`; dispatch on the
claim's topic `a/b` selects NO route at all (the stored patterns carry a
leading separator), and on the topic `/a/b`, which both routes match, the
route invoked differs between two enumerations of the same set — so which
route "wins" is a property of the set's unspecified iteration order, not
of registration order. -/
theorem C3_counterexample :
    (do
      let r1 ← Router.route ⟨"", []⟩ "a/\x7bx\x7d" 0 none none none axHandler
      Router.route r1 "a/b" 0 none none none abHandler)
        = .ok ⟨"", [axRoute, abRoute]⟩
      ∧ dispatchList handlerEnv [axRoute, abRoute] "a/b" (.vInt 5) []
          = .ok ([], none)
      ∧ List.Perm [abRoute, axRoute] [axRoute, abRoute]
      ∧ dispatchList handlerEnv [axRoute, abRoute] "/a/b" .vNone []
          = .ok ([(3, [("x", .vStr "b")])], some (.vInt 3))
      ∧ dispatchList handlerEnv [abRoute, axRoute] "/a/b" .vNone []
          = .ok ([(4, [])], some (.vInt 4)) :=
  ⟨by decide, by decide, List.Perm.swap axRoute abRoute [], by decide, by decide⟩

/-- Witness for the first-match theorem: enumeration `[/z, /a/\x7bx\x7d,
/a/b]` on topic `/a/b` skips the non-matching `/z` and invokes exactly the
`/a/\x7bx\x7d` handler. -/
theorem C3_dispatch_first_match_witness :
    ([zRoute].all (fun r0 => (matchTopic r0.pats "/a/b").isNone) = true) ∧
    matchTopic axRoute.pats "/a/b" = some [("x", "b")] ∧
    (dispatchList handlerEnv ([zRoute] ++ axRoute :: [abRoute]) "/a/b" .vNone []
        = (routeArgs axRoute [("x", "b")] .vNone []).map
            (fun args => ([(axRoute.handlerHid, args)],
              some (handlerEnv axRoute.handlerHid args)))
      ∧ (∀ rs : List RouteM,
          rs.all (fun r0 => (matchTopic r0.pats "/a/b").isNone) = true →
          dispatchList handlerEnv rs "/a/b" .vNone [] = .ok ([], none))) :=
  ⟨by decide, by decide,
   C3_dispatch_first_match handlerEnv [zRoute] [abRoute] axRoute "/a/b" .vNone
     [] [("x", "b")] (by decide) (by decide)⟩

/-- Claim C8, counterexample: registering the same template `x` with the
same handler and the same options twice leaves ONE route in the
collection, not two distinct entries — `_Route` is a frozen dataclass with
structural equality and hash, and `set.add` of an equal element is a
no-op. -/
theorem C8_counterexample :
    (Except.map (fun rt => rt.routes.length)
      (do
        let r1 ← Router.route ⟨"", []⟩ "x" 0 none none none emptyHandler
        Router.route r1 "x" 0 none none none emptyHandler)) = .ok 1 ∧
    (Except.map (fun rt => rt.routes)
      (do
        let r1 ← Router.route ⟨"", []⟩ "x" 0 none none none emptyHandler
        Router.route r1 "x" 0 none none none emptyHandler))
      = .ok [mkRoute "/x" emptyHandler 0 none none none] ∧
    (1 : Nat) ≠ 2 :=
  ⟨by decide, by decide, by decide⟩

/-- Witness for C8 on the fresh router and template `x`. -/
theorem C8_route_add_witness :
    Router.route ⟨"", []⟩ "x" 0 none none none emptyHandler
        = .ok ⟨"", [mkRoute "/x" emptyHandler 0 none none none]⟩ ∧
    (({ prefixStr := "", routes := [mkRoute "/x" emptyHandler 0 none none none]
        } : Router).prefixStr = ("" : String) ∧
      mkRoute ("" ++ "/" ++ "x") emptyHandler 0 none none none
        ∈ ({ prefixStr := "",
             routes := [mkRoute "/x" emptyHandler 0 none none none] }
             : Router).routes ∧
      (mkRoute ("" ++ "/" ++ "x") emptyHandler 0 none none none
          ∈ ({ prefixStr := "", routes := [] } : Router).routes →
        ({ prefixStr := "",
           routes := [mkRoute "/x" emptyHandler 0 none none none] }
           : Router).routes = ({ prefixStr := "", routes := [] } : Router).routes) ∧
      (mkRoute ("" ++ "/" ++ "x") emptyHandler 0 none none none
          ∉ ({ prefixStr := "", routes := [] } : Router).routes →
        ({ prefixStr := "",
           routes := [mkRoute "/x" emptyHandler 0 none none none] }
           : Router).routes
          = ({ prefixStr := "", routes := [] } : Router).routes
            ++ [mkRoute ("" ++ "/" ++ "x") emptyHandler 0 none none none])) :=
  ⟨by decide,
   C8_route_add ⟨"", []⟩ "x" emptyHandler 0 none none none
     ⟨"", [mkRoute "/x" emptyHandler 0 none none none]⟩ (by decide)⟩

theorem splitSep_no_sep (cs : List Char)
    (h : cs.contains TOPIC_SEPARATOR = false) : splitSep cs = [cs] := by
  induction cs with
  | nil => rfl
  | cons c rest ih =>
    simp only [List.contains_cons, Bool.or_eq_false_iff, beq_eq_false_iff_ne,
      ne_eq] at h
    rw [splitSep, ih h.2]
    show (if c = TOPIC_SEPARATOR then [] :: rest :: [] else (c :: rest) :: [])
      = [c :: rest]
    rw [if_neg (fun hc => h.1 hc.symm)]

theorem not_mem_of_contains_false {c : Char} {cs : List Char}
    (h : cs.contains c = false) : c ∉ cs := by
  simpa using h

/-- Claim C9 (amended): a segment that contains a well-formed placeholder
together with extra characters, or more than one placeholder, is rejected
at registration time with the route-validation error; but a segment whose
stray brace characters form no well-formed placeholder (so the placeholder
pattern finds nothing in it) passes validation — it is admitted as a
literal segment, not rejected. -/
theorem C9_brace_policy (seg : String) (hne : seg ≠ "")
    (hplus : seg.data.contains SINGLE_LEVEL_WILDCARD = false)
    (hhash : seg.data.contains MULTI_LEVEL_WILDCARD = false)
    (hsep : seg.data.contains TOPIC_SEPARATOR = false)
    (hnp : findPlaceholdersAux seg.data = []) :
    _validate_topic_pattern seg = .ok () ∧
    _validate_topic_pattern "x\x7ba\x7dy" = .error msgParamOccupy ∧
    _validate_topic_pattern "\x7ba\x7d\x7bb\x7d" = .error msgParamOccupy := by
  refine ⟨?_, by decide, by decide⟩
  rw [_validate_topic_pattern, if_neg hne,
    if_neg (by simp only [Bool.not_eq_true]; exact hplus),
    splitSep_no_sep seg.data hsep]
  rw [validateSegs]
  rw [if_neg (by
      simp only [not_and]
      intro hmem
      exact absurd hmem (by simpa using not_mem_of_contains_false hhash)),
    if_neg (by
      simp only [not_and]
      intro hmem
      exact absurd hmem (by simpa using not_mem_of_contains_false hhash)),
    hnp]
  rfl

/-- Claim C9, counterexample: the template `foo\x7b` — a literal segment
with a stray opening brace and no well-formed placeholder — is accepted by
registration on a prefix-less router and admitted as a route (which then
matches exactly the literal topic), instead of failing validation. -/
theorem C9_counterexample :
    Router.route ⟨"", []⟩ "foo\x7b" 0 none none none emptyHandler
        = .ok ⟨"", [mkRoute "/foo\x7b" emptyHandler 0 none none none]⟩ ∧
    findPlaceholdersAux "/foo\x7b".data = [] ∧
    _validate_topic_pattern "/foo\x7b" = .ok () ∧
    matchTopic (mkRoute "/foo\x7b" emptyHandler 0 none none none).pats
      "/foo\x7b" = some [] ∧
    _validate_topic_pattern "a\x7db" = .ok () :=
  ⟨by decide, by decide, by decide, by decide, by decide⟩

/-- Witness for C9 at the stray-brace segment `foo\x7b`. -/
theorem C9_brace_policy_witness :
    ("foo\x7b" : String) ≠ "" ∧
    ("foo\x7b" : String).data.contains SINGLE_LEVEL_WILDCARD = false ∧
    ("foo\x7b" : String).data.contains MULTI_LEVEL_WILDCARD = false ∧
    ("foo\x7b" : String).data.contains TOPIC_SEPARATOR = false ∧
    findPlaceholdersAux ("foo\x7b" : String).data = [] ∧
    (_validate_topic_pattern "foo\x7b" = .ok () ∧
      _validate_topic_pattern "x\x7ba\x7dy" = .error msgParamOccupy ∧
      _validate_topic_pattern "\x7ba\x7d\x7bb\x7d" = .error msgParamOccupy) :=
  ⟨by decide, by decide, by decide, by decide, by decide,
   C9_brace_policy "foo\x7b" (by decide) (by decide) (by decide) (by decide)
     (by decide)⟩

/-!
The registry invariant covers all reachable states: it holds of the empty
registry and every `register` call preserves it.
-/

theorem registryWf_empty : RegistryWf emptyRegistry :=
  ⟨rfl, List.nodup_nil, rfl⟩

theorem dictSet_fresh (d : List (Nat × Codec)) (k : Nat) (v : Codec)
    (h : dictLookup d k = none) : dictSet d k v = d ++ [(k, v)] := by
  induction d with
  | nil => rfl
  | cons kv d ih =>
    obtain ⟨k1, v1⟩ := kv
    rw [dictLookup] at h
    by_cases hk : k1 = k
    · rw [if_pos hk] at h; cases h
    · rw [if_neg hk] at h
      rw [dictSet, if_neg hk, ih h, List.cons_append]

theorem dictSet_map_replace (l : List Codec) (t : Int) (c c0 : Codec)
    (ht0 : 0 ≤ t) (htc : c.tag = .int t) (hok : l.all tagOkB = true)
    (hfind : l.find? (fun c1 => tagNat c1 == t.toNat) = some c0) :
    dictSet (l.map (fun c1 => (tagNat c1, c1))) t.toNat c
      = (replaceFirstByTag l (.int t) c).map (fun c1 => (tagNat c1, c1)) := by
  induction l with
  | nil => cases hfind
  | cons c1 l ih =>
    simp only [List.all_cons, Bool.and_eq_true] at hok
    obtain ⟨n, hn, hn0, hn255, hnv⟩ := tagOkB_spec c1 hok.1
    by_cases h : tagNat c1 = t.toNat
    · rw [List.map_cons, dictSet, if_pos h, replaceFirstByTag, if_pos ?_]
      · rw [List.map_cons, tagNat_int c t htc]
      · rw [hn]
        show (n == t) = true
        rw [hnv] at h
        simp only [beq_iff_eq]
        omega
    · have hfind2 : l.find? (fun c1 => tagNat c1 == t.toNat) = some c0 := by
        rw [List.find?_cons_of_neg _ (by simp [h])] at hfind
        exact hfind
      rw [List.map_cons, dictSet, if_neg h, replaceFirstByTag, if_neg ?_]
      · rw [List.map_cons, ih hok.2 hfind2]
      · rw [hn]
        show ¬(n == t) = true
        rw [hnv] at h
        simp only [beq_iff_eq]
        omega

theorem map_tagNat_replaceFirst (l : List Codec) (t : Int) (c : Codec)
    (ht0 : 0 ≤ t) (htc : c.tag = .int t) (hok : l.all tagOkB = true) :
    (replaceFirstByTag l (.int t) c).map tagNat = l.map tagNat := by
  induction l with
  | nil => rfl
  | cons c1 l ih =>
    simp only [List.all_cons, Bool.and_eq_true] at hok
    obtain ⟨n, hn, hn0, hn255, hnv⟩ := tagOkB_spec c1 hok.1
    rw [replaceFirstByTag]
    by_cases h : tagNat c1 = t.toNat
    · rw [if_pos ?_]
      · rw [List.map_cons, List.map_cons, tagNat_int c t htc, h]
      · rw [hn]
        show (n == t) = true
        rw [hnv] at h
        simp only [beq_iff_eq]
        omega
    · by_cases hp : pyTagEq c1.tag (.int t) = true
      · exfalso
        rw [hn] at hp
        have : (n == t) = true := hp
        simp only [beq_iff_eq] at this
        rw [hnv] at h
        omega
      · rw [if_neg hp, List.map_cons, List.map_cons, ih hok.2]

theorem all_tagOkB_replaceFirst (l : List Codec) (t : Int) (c : Codec)
    (htok : tagOkB c = true) (hok : l.all tagOkB = true) :
    (replaceFirstByTag l (.int t) c).all tagOkB = true := by
  induction l with
  | nil => rfl
  | cons c1 l ih =>
    simp only [List.all_cons, Bool.and_eq_true] at hok
    rw [replaceFirstByTag]
    by_cases hp : pyTagEq c1.tag (.int t) = true
    · rw [if_pos hp]
      simp only [List.all_cons, Bool.and_eq_true]
      exact ⟨htok, hok.2⟩
    · rw [if_neg hp]
      simp only [List.all_cons, Bool.and_eq_true]
      exact ⟨hok.1, ih hok.2⟩

theorem register_preserves_wf (reg reg2 : CodecRegistry) (c : Codec) (ov : Bool)
    (res : Except String Unit) (hwf : RegistryWf reg)
    (hreg : reg.register c ov = (reg2, res)) : RegistryWf reg2 := by
  obtain ⟨hpar, hnd, hok⟩ := hwf
  cases htag : c.tag with
  | bool b =>
    rw [register_tag_bool reg c b ov htag] at hreg
    injection hreg with h1 h2
    subst h1
    exact ⟨hpar, hnd, hok⟩
  | other =>
    rw [register_tag_other reg c ov htag] at hreg
    injection hreg with h1 h2
    subst h1
    exact ⟨hpar, hnd, hok⟩
  | int t =>
    rw [register_tag_int reg c t ov htag] at hreg
    by_cases hr : 0 ≤ t ∧ t ≤ MAX_CODEC_TAG
    · rw [if_neg (by simpa using hr)] at hreg
      have htok : tagOkB c = true := by
        unfold tagOkB
        rw [htag]
        simp only [decide_eq_true_eq, MAX_CODEC_TAG] at hr ⊢
        exact hr
      cases hdl : dictLookup reg.codecs_by_tag t.toNat with
      | none =>
        rw [hdl] at hreg
        injection hreg with h1 h2
        subst h1
        have hfresh : dictLookup (reg.codecs_by_order.map
            (fun c1 => (tagNat c1, c1))) t.toNat = none := by
          rw [← hpar]; exact hdl
        have hnotin : tagNat c ∉ reg.codecs_by_order.map tagNat := by
          rw [dictLookup_map_find] at hfresh
          have hall := List.find?_eq_none.mp hfresh
          intro hmem
          obtain ⟨c1, hc1, hc1v⟩ := List.mem_map.mp hmem
          have := hall c1 hc1
          rw [tagNat_int c t htag] at hc1v
          simp only [hc1v, beq_self_eq_true, not_true] at this
        refine ⟨?_, ?_, ?_⟩
        · show dictSet reg.codecs_by_tag t.toNat c
            = (reg.codecs_by_order ++ [c]).map (fun c1 => (tagNat c1, c1))
          rw [hpar, dictSet_fresh _ _ _ hfresh, List.map_append,
            List.map_singleton, tagNat_int c t htag]
        · show ((reg.codecs_by_order ++ [c]).map tagNat).Nodup
          rw [List.map_append, List.map_singleton]
          simp only [List.nodup_append, List.nodup_singleton,
            List.disjoint_singleton]
          exact ⟨hnd, by simp, hnotin⟩
        · show (reg.codecs_by_order ++ [c]).all tagOkB = true
          rw [List.all_append]
          simp only [List.all_cons, List.all_nil, Bool.and_eq_true]
          exact ⟨hok, htok, trivial⟩
      | some c0 =>
        rw [hdl] at hreg
        cases ov with
        | false =>
          rw [if_pos (by simp)] at hreg
          injection hreg with h1 h2
          subst h1
          exact ⟨hpar, hnd, hok⟩
        | true =>
          rw [if_neg (by simp)] at hreg
          injection hreg with h1 h2
          subst h1
          have hfind : reg.codecs_by_order.find?
              (fun c1 => tagNat c1 == t.toNat) = some c0 := by
            rw [← dictLookup_map_find, ← hpar]
            exact hdl
          refine ⟨?_, ?_, ?_⟩
          · show dictSet reg.codecs_by_tag t.toNat c
              = (replaceFirstByTag reg.codecs_by_order (.int t) c).map
                  (fun c1 => (tagNat c1, c1))
            rw [hpar]
            exact dictSet_map_replace reg.codecs_by_order t c c0 hr.1 htag
              hok hfind
          · show ((replaceFirstByTag reg.codecs_by_order (.int t) c).map
              tagNat).Nodup
            rw [map_tagNat_replaceFirst reg.codecs_by_order t c hr.1
              htag hok]
            exact hnd
          · show (replaceFirstByTag reg.codecs_by_order (.int t) c).all
              tagOkB = true
            exact all_tagOkB_replaceFirst reg.codecs_by_order t c htok hok
    · rw [if_pos (by simpa using hr)] at hreg
      injection hreg with h1 h2
      subst h1
      exact ⟨hpar, hnd, hok⟩
